import Mathlib

/-!
Verification of the dynamic-branch-env lifecycle controller and its
routing-priority allocator, shallowly embedded from
`src/lib/lambdas/environment-controller/index.ts` and
`src/lib/lambdas/cleanup-handler/index.ts`.

State-store tables (DynamoDB) are modelled as explicit Lean data: the
environments table as an association list keyed by `virtualEnvId`, the
routing-config table as a list of rows keyed by `(serviceId, virtualEnvId)`,
and the priorities table (for the single configured listener) as the
`Finset` of priority keys present.  Backend (ECS / ELBv2 / Cloud Map) calls
are side-effect-free in the model except for the operation trace they emit;
an `Oracle : Op → Bool` decides which backend calls throw.  Store writes are
modelled as always succeeding (no claim concerns store-level faults).
-/

set_option autoImplicit false

namespace DynBranchEnv

/-! ### The priority-allocation scan loop

`allocatePriority` in the source queries the priorities table into a
`usedPriorities` set, then loops `priority = 1..100`; for each candidate not
in the pre-scanned set it attempts a conditional `PutItem`
(`attribute_not_exists`); on a conditional failure it moves on to the next
candidate; if the loop completes without a commit it throws the dedicated
"No available ALB rule priorities" error.  `cas p` abstracts whether the
conditional create of candidate `p` commits. -/

/-- The priority range 1..100 reserved for previews, in the ascending order
the `for` loop of `allocatePriority` visits it. -/
def priorityRange : List ℕ := List.range' 1 100

/-- The scan loop of `allocatePriority` (environment-controller/index.ts,
lines 784-805) over a list of candidates: skip candidates in the
pre-scanned `used` set, attempt the conditional create on the rest, return
the first that commits, `none` when the whole list commits nothing. -/
def allocScan (used : Finset ℕ) (cas : ℕ → Bool) : List ℕ → Option ℕ
  | [] => none
  | p :: rest =>
    if p ∈ used then allocScan used cas rest
    else if cas p then some p
    else allocScan used cas rest

/-- The candidates on which the loop actually attempts the conditional
create (the `PutItem` calls issued), in order. -/
def allocScanAttempts (used : Finset ℕ) (cas : ℕ → Bool) : List ℕ → List ℕ
  | [] => []
  | p :: rest =>
    if p ∈ used then allocScanAttempts used cas rest
    else if cas p then [p]
    else p :: allocScanAttempts used cas rest

/-! ### Data model (environment-controller/index.ts interfaces)

Timestamps are modelled as natural-number epoch seconds (`createdAt` /
`updatedAt` are ISO strings in the source; only their freshness matters, so
the model stores the epoch value).  Backend-resource identifiers (ARNs) are
modelled as deterministic strings derived from the service name. -/

structure VirtualEnvAction where
  virtualEnvId : String
  repository : String
  branch : String
  commitSha : String
  prNumber : ℕ
  prUrl : String
deriving DecidableEq, Repr

structure ServiceState where
  serviceId : String
  ecsServiceArn : Option String := none
  taskDefinitionArn : Option String := none
  targetGroupArn : Option String := none
  albRuleArn : Option String := none
  cloudMapServiceId : Option String := none
  status : String
deriving DecidableEq, Repr

structure VirtualEnvironment where
  virtualEnvId : String
  status : String
  repository : String
  branch : String
  prNumber : ℕ
  prUrl : String
  commitSha : String
  services : List (String × ServiceState)
  previewUrl : String
  createdAt : ℕ
  updatedAt : ℕ
  expiresAt : ℕ
  ttl : ℕ
  lastError : Option String := none
deriving DecidableEq, Repr

structure RoutingConfig where
  serviceId : String
  virtualEnvId : String
  targetGroupArn : String
  albRuleArn : String
  priority : ℕ
  ttl : ℕ
deriving DecidableEq, Repr

structure PreviewableService where
  serviceId : String
  pathPattern : String
  port : ℕ
  healthCheckPath : String
  cpu : ℕ
  memory : ℕ
  imageUri : String
deriving DecidableEq, Repr

def PREVIEWABLE_SERVICES : List PreviewableService :=
  [⟨"api-gateway", "/api/*", 3000, "/health", 256, 512, "amazon/amazon-ecs-sample:latest"⟩,
   ⟨"web-app", "/*", 3000, "/health", 256, 512, "amazon/amazon-ecs-sample:latest"⟩]

def DEFAULT_TTL_HOURS : ℕ := 24

def DOMAIN_NAME : String := "example.com"

/-- One side-effecting call issued against a backend or the state store;
the controller's observable behaviour is its final state plus the ordered
trace of these operations. -/
inductive Op where
  | registerTaskDef (env svc : String)
  | createTargetGroup (env svc : String)
  | putPriority (p : ℕ)
  | createRule (env svc : String)
  | createCloudMap (env svc : String)
  | createEcsService (env svc : String)
  | putRoutingConfig (env svc : String)
  | forceRedeploy (arn : String)
  | deleteRule (arn : String)
  | scaleEcsToZero (name : String)
  | deleteEcsService (name : String)
  | deleteTargetGroup (arn : String)
  | deleteCloudMap (id : String)
  | deletePriority (p : ℕ)
  | putEnvironment (id : String)
  | updateEnvironment (id status : String)
  | updateEnvStatus (id status : String)
  | updateEnvServices (id : String)
  | updateRoutingTtl (svc env : String)
  | deleteRoutingConfig (svc env : String)
deriving DecidableEq, Repr

/-- Errors thrown inside the controller: a backend SDK call failing, or the
allocator's dedicated capacity-exhaustion error ("No available ALB rule
priorities - maximum concurrent environments reached"). -/
inductive CtrlError where
  | awsError (op : Op)
  | resourceExhausted
deriving DecidableEq, Repr

/-- `orc op = true` means the backend call `op` throws. -/
abbrev Oracle := Op → Bool

/-- The durable state: the environments table (association list keyed by
`virtualEnvId`), the routing-config table (rows keyed by
`(serviceId, virtualEnvId)`), and the priorities table for the single
configured listener (the set of priority keys present). -/
structure World where
  environments : List (String × VirtualEnvironment)
  routingConfigs : List RoutingConfig
  priorities : Finset ℕ
deriving DecidableEq

/-- Result of running a controller function: final world, emitted operation
trace, and normal result or thrown error. -/
structure StepRes (α : Type) where
  w : World
  tr : List Op
  res : Except CtrlError α

/-! ### State-store access helpers (DynamoDB call sites) -/

/-- `PutItem` on the environments table: replace the row with this key, or
insert it. -/
def putEnv (l : List (String × VirtualEnvironment)) (id : String)
    (e : VirtualEnvironment) : List (String × VirtualEnvironment) :=
  match l with
  | [] => [(id, e)]
  | (k, v) :: t => if k = id then (id, e) :: t else (k, v) :: putEnv t id e

/-- `GetItem` on the environments table (`getEnvironment` in the source). -/
def getEnv (l : List (String × VirtualEnvironment)) (id : String) :
    Option VirtualEnvironment :=
  (l.find? (fun kv => kv.1 = id)).map (fun kv => kv.2)

/-- `UpdateItem` on the environments table for an existing row. -/
def updateEnvRecord (l : List (String × VirtualEnvironment)) (id : String)
    (f : VirtualEnvironment → VirtualEnvironment) :
    List (String × VirtualEnvironment) :=
  l.map (fun kv => if kv.1 = id then (kv.1, f kv.2) else kv)

/-- `updateEnvironmentStatus` without an error argument: sets only `status`
and `updatedAt`; `lastError` is left untouched. -/
def setEnvStatus (l : List (String × VirtualEnvironment)) (id status : String)
    (now : ℕ) : List (String × VirtualEnvironment) :=
  updateEnvRecord l id (fun v => { v with status := status, updatedAt := now })

/-- `updateEnvironmentStatus` with an error argument: also sets `lastError`. -/
def setEnvStatusErr (l : List (String × VirtualEnvironment))
    (id status err : String) (now : ℕ) : List (String × VirtualEnvironment) :=
  updateEnvRecord l id
    (fun v => { v with status := status, updatedAt := now, lastError := some err })

/-- `updateEnvironmentServices`: overwrite the whole `services` map. -/
def setEnvServices (l : List (String × VirtualEnvironment)) (id : String)
    (services : List (String × ServiceState)) (now : ℕ) :
    List (String × VirtualEnvironment) :=
  updateEnvRecord l id (fun v => { v with services := services, updatedAt := now })

/-- Assignment `serviceStates[service.serviceId] = st` into the in-memory
record object. -/
def putSvc (l : List (String × ServiceState)) (id : String) (st : ServiceState) :
    List (String × ServiceState) :=
  match l with
  | [] => [(id, st)]
  | (k, v) :: t => if k = id then (id, st) :: t else (k, v) :: putSvc t id st

/-- Lookup `services[serviceId]` in the record object. -/
def getSvc (l : List (String × ServiceState)) (id : String) : Option ServiceState :=
  (l.find? (fun kv => kv.1 = id)).map (fun kv => kv.2)

/-- `PutItem` on the routing-config table (keyed by serviceId+virtualEnvId). -/
def putCfg (l : List RoutingConfig) (c : RoutingConfig) : List RoutingConfig :=
  match l with
  | [] => [c]
  | d :: t =>
    if d.serviceId = c.serviceId ∧ d.virtualEnvId = c.virtualEnvId
    then c :: t else d :: putCfg t c

/-- `getRoutingConfig` in the source. -/
def getCfg (l : List RoutingConfig) (svc env : String) : Option RoutingConfig :=
  l.find? (fun c => c.serviceId = svc ∧ c.virtualEnvId = env)

/-- The `virtualEnvId-serviceId-index` query: all routing-config rows of one
environment. -/
def cfgsForEnv (l : List RoutingConfig) (env : String) : List RoutingConfig :=
  l.filter (fun c => c.virtualEnvId = env)

/-! ### Priority allocator (allocatePriority / releasePriority) -/

/-- Whether the conditional create of candidate `p` commits: the
`attribute_not_exists` condition holds against the current table and no
concurrent allocator interferes (`orc` failing the put models a lost race,
which the source catches and treats as "taken"). -/
def allocCas (orc : Oracle) (prios : Finset ℕ) (p : ℕ) : Bool :=
  decide (p ∉ prios) && ! orc (.putPriority p)

/-- `allocatePriority`: query the used set, scan 1..100, conditionally
create the first free candidate; throw the dedicated resource-exhaustion
error when the full scan commits nothing. -/
def allocatePriority (orc : Oracle) (w : World) : StepRes ℕ :=
  let used := w.priorities
  let tr := (allocScanAttempts used (allocCas orc w.priorities) priorityRange).map Op.putPriority
  match allocScan used (allocCas orc w.priorities) priorityRange with
  | some p => ⟨{ w with priorities := insert p w.priorities }, tr, .ok p⟩
  | none => ⟨w, tr, .error .resourceExhausted⟩

/-- `releasePriority`: unconditional `DeleteItem` of the priority row. -/
def releasePriority (w : World) (priority : ℕ) : World × List Op :=
  ({ w with priorities := w.priorities.erase priority }, [.deletePriority priority])

/-! ### Per-service deploy (deployService) -/

/-- `deployService`: register the task definition, create the target group,
allocate a priority and create the ALB rule, best-effort create the Cloud
Map service, create the ECS service, then persist the routing config as the
last step.  Any throwing step aborts the rest of this service's deployment
(the world keeps the mutations already made, in particular an allocated
priority). -/
def deployService (orc : Oracle) (w : World) (virtualEnvId : String)
    (service : PreviewableService) (expiresAt : ℕ) : StepRes ServiceState :=
  let serviceName := virtualEnvId ++ "-" ++ service.serviceId
  let op1 := Op.registerTaskDef virtualEnvId service.serviceId
  if orc op1 then ⟨w, [op1], .error (.awsError op1)⟩ else
  let taskDefinitionArn := serviceName ++ ":taskdef"
  let op2 := Op.createTargetGroup virtualEnvId service.serviceId
  if orc op2 then ⟨w, [op1, op2], .error (.awsError op2)⟩ else
  let targetGroupArn := serviceName ++ ":tg"
  let ra := allocatePriority orc w
  match ra.res with
  | .error e => ⟨ra.w, [op1, op2] ++ ra.tr, .error e⟩
  | .ok priority =>
    let op4 := Op.createRule virtualEnvId service.serviceId
    if orc op4 then ⟨ra.w, [op1, op2] ++ ra.tr ++ [op4], .error (.awsError op4)⟩ else
    let albRuleArn := serviceName ++ ":rule"
    let op5 := Op.createCloudMap virtualEnvId service.serviceId
    let cloudMapServiceId :=
      if orc op5 then none else some (serviceName ++ ":cloudmap")
    let op6 := Op.createEcsService virtualEnvId service.serviceId
    if orc op6 then ⟨ra.w, [op1, op2] ++ ra.tr ++ [op4, op5, op6], .error (.awsError op6)⟩ else
    let ecsServiceArn := serviceName ++ ":ecs"
    let cfg : RoutingConfig :=
      ⟨service.serviceId, virtualEnvId, targetGroupArn, albRuleArn, priority, expiresAt⟩
    ⟨{ ra.w with routingConfigs := putCfg ra.w.routingConfigs cfg },
     [op1, op2] ++ ra.tr ++ [op4, op5, op6, .putRoutingConfig virtualEnvId service.serviceId],
     .ok ⟨service.serviceId, some ecsServiceArn, some taskDefinitionArn,
          some targetGroupArn, some albRuleArn, cloudMapServiceId, "ACTIVE"⟩⟩

/-! ### Per-service teardown (cleanupService) -/

/-- `cleanupService`: delete the ALB rule, scale the ECS service to zero
then delete it (one try-block: a failed scale skips the delete), delete the
target group, delete the Cloud Map service — each guarded by the presence of
the corresponding handle and each failure caught — and finally release the
priority if and only if a routing-config row for this service still exists. -/
def cleanupService (orc : Oracle) (w : World) (virtualEnvId serviceId : String)
    (serviceState : ServiceState) : World × List Op :=
  let serviceName := virtualEnvId ++ "-" ++ serviceId
  let tr1 := match serviceState.albRuleArn with
    | some arn => [Op.deleteRule arn]
    | none => []
  let tr2 := match serviceState.ecsServiceArn with
    | some _ =>
      if orc (.scaleEcsToZero serviceName) then [Op.scaleEcsToZero serviceName]
      else [Op.scaleEcsToZero serviceName, Op.deleteEcsService serviceName]
    | none => []
  let tr3 := match serviceState.targetGroupArn with
    | some arn => [Op.deleteTargetGroup arn]
    | none => []
  let tr4 := match serviceState.cloudMapServiceId with
    | some id => [Op.deleteCloudMap id]
    | none => []
  match getCfg w.routingConfigs serviceId virtualEnvId with
  | some cfg =>
    let r5 := releasePriority w cfg.priority
    (r5.1, tr1 ++ tr2 ++ tr3 ++ tr4 ++ r5.2)
  | none => (w, tr1 ++ tr2 ++ tr3 ++ tr4)

/-! ### Lifecycle handlers -/

/-- The per-service cleanup loop of `handleDestroy` (each call wrapped in a
try/catch; in the model `cleanupService` is total). -/
def cleanupServices (orc : Oracle) (w : World) (virtualEnvId : String) :
    List (String × ServiceState) → World × List Op
  | [] => (w, [])
  | (sid, st) :: rest =>
    let r1 := cleanupService orc w virtualEnvId sid st
    let r2 := cleanupServices orc r1.1 virtualEnvId rest
    (r2.1, r1.2 ++ r2.2)

/-- `cleanupRoutingConfig`: query the environment's routing-config rows and
delete each by key. -/
def cleanupRoutingConfig (w : World) (virtualEnvId : String) : World × List Op :=
  let cfgs := cfgsForEnv w.routingConfigs virtualEnvId
  ({ w with routingConfigs :=
      w.routingConfigs.filter (fun c => ¬ c.virtualEnvId = virtualEnvId) },
   cfgs.map (fun c => Op.deleteRoutingConfig c.serviceId c.virtualEnvId))

/-- `updateRoutingConfigTtls`: refresh the `ttl` mirror on every
routing-config row of the environment. -/
def updateRoutingConfigTtls (w : World) (virtualEnvId : String) (expiresAt : ℕ) :
    World × List Op :=
  let cfgs := cfgsForEnv w.routingConfigs virtualEnvId
  ({ w with routingConfigs :=
      w.routingConfigs.map (fun c =>
        if c.virtualEnvId = virtualEnvId then { c with ttl := expiresAt } else c) },
   cfgs.map (fun c => Op.updateRoutingTtl c.serviceId c.virtualEnvId))

/-- `handleDestroy`: missing record is a no-op success; otherwise set
DESTROYING, clean up every service present in the record, delete the
routing-config rows, and set DESTROYED. -/
def handleDestroy (orc : Oracle) (now : ℕ) (w : World) (virtualEnvId : String) :
    StepRes Unit :=
  match getEnv w.environments virtualEnvId with
  | none => ⟨w, [], .ok ()⟩
  | some existing =>
    let w1 := { w with environments := setEnvStatus w.environments virtualEnvId "DESTROYING" now }
    let c := cleanupServices orc w1 virtualEnvId existing.services
    let r := cleanupRoutingConfig c.1 virtualEnvId
    let w4 := { r.1 with environments := setEnvStatus r.1.environments virtualEnvId "DESTROYED" now }
    ⟨w4,
     [.updateEnvStatus virtualEnvId "DESTROYING"] ++ c.2 ++ r.2
       ++ [.updateEnvStatus virtualEnvId "DESTROYED"],
     .ok ()⟩

/-- The per-service record update of the deployment loop: the deployed
ServiceState on success, a FAILED ServiceState with no handles when the
deployment threw. -/
def deployAcc (acc : List (String × ServiceState)) (service : PreviewableService) :
    Except CtrlError ServiceState → List (String × ServiceState)
  | .ok st => putSvc acc service.serviceId st
  | .error _ =>
    putSvc acc service.serviceId
      ⟨service.serviceId, none, none, none, none, none, "FAILED"⟩

/-- The service-deployment loop of `handleCreate`: deploy each configured
service independently, accumulate its ServiceState (FAILED with no handles
when the deployment threw) and persist the accumulated map after every
service. -/
def deployLoop (orc : Oracle) (now : ℕ) (w : World) (virtualEnvId : String)
    (expiresAt : ℕ) (acc : List (String × ServiceState)) :
    List PreviewableService → World × List Op × List (String × ServiceState)
  | [] => (w, [], acc)
  | service :: rest =>
    let r := deployService orc w virtualEnvId service expiresAt
    let acc1 := deployAcc acc service r.res
    let w2 := { r.w with environments := setEnvServices r.w.environments virtualEnvId acc1 now }
    let d := deployLoop orc now w2 virtualEnvId expiresAt acc1 rest
    (d.1, r.tr ++ [.updateEnvServices virtualEnvId] ++ d.2.1, d.2.2)

/-- The fresh-create path of `handleCreate`: overwrite the record in
CREATING with `expiresAt = now + defaultTtl`, deploy every configured
service, then set ACTIVE (with no error argument, so `lastError` is not
written). -/
def freshEnvRecord (a : VirtualEnvAction) (now : ℕ) : VirtualEnvironment :=
  let expiresAt := now + DEFAULT_TTL_HOURS * 60 * 60
  let previewUrl := "https://" ++ a.virtualEnvId ++ "." ++ DOMAIN_NAME
  ⟨a.virtualEnvId, "CREATING", a.repository, a.branch, a.prNumber, a.prUrl,
   a.commitSha, [], previewUrl, now, now, expiresAt, expiresAt, none⟩

def handleCreateFresh (orc : Oracle) (now : ℕ) (w : World)
    (a : VirtualEnvAction) : StepRes Unit :=
  let expiresAt := now + DEFAULT_TTL_HOURS * 60 * 60
  let w1 := { w with environments := putEnv w.environments a.virtualEnvId (freshEnvRecord a now) }
  let d := deployLoop orc now w1 a.virtualEnvId expiresAt [] PREVIEWABLE_SERVICES
  let w3 := { d.1 with environments := setEnvStatus d.1.environments a.virtualEnvId "ACTIVE" now }
  ⟨w3,
   [.putEnvironment a.virtualEnvId] ++ d.2.1 ++ [.updateEnvStatus a.virtualEnvId "ACTIVE"],
   .ok ()⟩

/-- The best-effort `forceNewDeployment` call for one configured service:
issued only when the existing record holds a provisioned `ecsServiceArn`
for it. -/
def redeployOp (existing : VirtualEnvironment) (s : PreviewableService) : List Op :=
  match (getSvc existing.services s.serviceId).bind (fun st => st.ecsServiceArn) with
  | some arn => [Op.forceRedeploy arn]
  | none => []

/-- The redeploy loop of `handleUpdate`: one best-effort
`forceNewDeployment` per configured service that has a provisioned
`ecsServiceArn` in the existing record. -/
def redeployOps (existing : VirtualEnvironment) : List PreviewableService → List Op
  | [] => []
  | s :: rest => redeployOp existing s ++ redeployOps existing rest

/-- The update path of `handleUpdate` for an existing record: set UPDATING
and refresh `expiresAt`/`ttl`/`commitSha`, force a redeploy of each service
with a compute handle (failures logged, non-fatal), refresh the
routing-config `ttl` mirrors, and set ACTIVE. -/
def handleUpdateGo (_orc : Oracle) (now : ℕ) (w : World) (a : VirtualEnvAction)
    (existing : VirtualEnvironment) : StepRes Unit :=
  let expiresAt := now + DEFAULT_TTL_HOURS * 60 * 60
  let envs1 := updateEnvRecord w.environments a.virtualEnvId (fun v =>
    { v with status := "UPDATING", updatedAt := now, expiresAt := expiresAt,
             ttl := expiresAt, commitSha := a.commitSha })
  let w1 := { w with environments := envs1 }
  let tr2 := redeployOps existing PREVIEWABLE_SERVICES
  let u := updateRoutingConfigTtls w1 a.virtualEnvId expiresAt
  let w4 := { u.1 with environments := setEnvStatus u.1.environments a.virtualEnvId "ACTIVE" now }
  ⟨w4,
   [.updateEnvironment a.virtualEnvId "UPDATING"] ++ tr2 ++ u.2
     ++ [.updateEnvStatus a.virtualEnvId "ACTIVE"],
   .ok ()⟩

/-- `handleCreate`: an existing record whose status is neither DESTROYED nor
FAILED routes the action to `handleUpdate` (which re-reads the same record);
otherwise the fresh-create path runs. -/
def handleCreate (orc : Oracle) (now : ℕ) (w : World) (a : VirtualEnvAction) :
    StepRes Unit :=
  match getEnv w.environments a.virtualEnvId with
  | some existing =>
    if existing.status ≠ "DESTROYED" ∧ existing.status ≠ "FAILED"
    then handleUpdateGo orc now w a existing
    else handleCreateFresh orc now w a
  | none => handleCreateFresh orc now w a

/-- `handleUpdate`: a missing record routes the action to `handleCreate`
(which re-reads and takes the fresh path); otherwise the update path runs. -/
def handleUpdate (orc : Oracle) (now : ℕ) (w : World) (a : VirtualEnvAction) :
    StepRes Unit :=
  match getEnv w.environments a.virtualEnvId with
  | none => handleCreate orc now w a
  | some existing => handleUpdateGo orc now w a existing

/-! ### Derived observables used by the verification -/

/-- Whether an operation provisions a backend resource or writes a new
routing/priority row (the operations a duplicate CREATE must not repeat). -/
def isProvisionOp : Op → Bool
  | .registerTaskDef _ _ => true
  | .createTargetGroup _ _ => true
  | .putPriority _ => true
  | .createRule _ _ => true
  | .createCloudMap _ _ => true
  | .createEcsService _ _ => true
  | .putRoutingConfig _ _ => true
  | _ => false

/-- Number of rows of the environments table carrying a given key. -/
def envCount (l : List (String × VirtualEnvironment)) (id : String) : ℕ :=
  (l.filter (fun kv => kv.1 = id)).length

/-- The kind of backend resource a creation/teardown operation touches, for
comparing creation order against teardown order. -/
inductive StepKind where
  | targetGroup
  | priority
  | rule
  | registry
  | compute
deriving DecidableEq, Repr

/-- Creation-side resource kind of an operation. -/
def createKind : Op → Option StepKind
  | .createTargetGroup _ _ => some .targetGroup
  | .putPriority _ => some .priority
  | .createRule _ _ => some .rule
  | .createCloudMap _ _ => some .registry
  | .createEcsService _ _ => some .compute
  | _ => none

/-- Teardown-side resource kind of an operation (the ECS scale-to-zero call
belongs to the same compute step as the delete and is not counted
separately). -/
def destroyKind : Op → Option StepKind
  | .deleteTargetGroup _ => some .targetGroup
  | .deletePriority _ => some .priority
  | .deleteRule _ => some .rule
  | .deleteCloudMap _ => some .registry
  | .deleteEcsService _ => some .compute
  | _ => none

/-- The all-successful backend oracle. -/
def okOrc : Oracle := fun _ => false

/-- An oracle failing exactly the ALB rule creation of `api-gateway` in
`pr-1`. -/
def failRuleOrc : Oracle := fun o => o = Op.createRule "pr-1" "api-gateway"

/-- An oracle failing exactly the ALB rule creation of `web-app` in
`pr-1`. -/
def failRuleOrc2 : Oracle := fun o => o = Op.createRule "pr-1" "web-app"

/-- A sample CREATE/UPDATE/DESTROY action payload for PR 1. -/
def sampleAction : VirtualEnvAction :=
  ⟨"pr-1", "org/repo", "feature", "abc123", 1, "https://example/pr/1"⟩

/-- The empty state store. -/
def emptyWorld : World := ⟨[], [], ∅⟩

/-- A fully provisioned service state, as produced by a successful
`deployService` run for `pr-1`/`api-gateway`. -/
def sampleSvcState : ServiceState :=
  ⟨"api-gateway", some "pr-1-api-gateway:ecs", some "pr-1-api-gateway:taskdef",
   some "pr-1-api-gateway:tg", some "pr-1-api-gateway:rule",
   some "pr-1-api-gateway:cloudmap", "ACTIVE"⟩

/-- A sample ACTIVE environment record for `pr-1` with one deployed service. -/
def sampleEnv : VirtualEnvironment :=
  ⟨"pr-1", "ACTIVE", "org/repo", "feature", 1, "https://example/pr/1", "abc123",
   [("api-gateway", sampleSvcState)], "https://pr-1.example.com", 100, 100,
   86500, 86500, none⟩

/-- A sample world holding `sampleEnv`, its routing-config row and its
priority allocation. -/
def sampleWorld : World :=
  ⟨[("pr-1", sampleEnv)],
   [⟨"api-gateway", "pr-1", "pr-1-api-gateway:tg", "pr-1-api-gateway:rule", 1, 86500⟩],
   {1}⟩


/-! ### Reconciling sweeper (cleanup-handler/index.ts)

The environments table as seen by the sweeper's scans, with `expiresAt` as
integer epoch seconds (the cutoff `now - gracePeriod` subtracts). -/

structure SweepEnv where
  virtualEnvId : String
  status : String
  repository : String
  branch : String
  prNumber : ℕ
  prUrl : String
  expiresAt : Int
deriving DecidableEq, Repr

/-- The DESTROY event the sweeper emits through the controller entry point. -/
structure DestroyEvent where
  action : String
  virtualEnvId : String
  repository : String
  branch : String
  prNumber : ℕ
  prUrl : String
  commitSha : String
  reason : String
deriving DecidableEq, Repr

/-- `findExpiredEnvironments`: status ACTIVE and `expiresAt < now`. -/
def findExpiredEnvironments (envs : List SweepEnv) (now : Int) : List SweepEnv :=
  envs.filter (fun e => e.status = "ACTIVE" ∧ e.expiresAt < now)

/-- `findOverdueEnvironments`: status CREATING or UPDATING and
`expiresAt < now - gracePeriodSeconds`. -/
def findOverdueEnvironments (envs : List SweepEnv) (now : Int)
    (graceMinutes : Int) : List SweepEnv :=
  envs.filter (fun e =>
    (e.status = "CREATING" ∨ e.status = "UPDATING")
      ∧ e.expiresAt < now - graceMinutes * 60)

/-- `emitDestroyEvent`: the DESTROY action payload for one environment. -/
def emitDestroyEvent (e : SweepEnv) : DestroyEvent :=
  ⟨"DESTROY", e.virtualEnvId, e.repository, e.branch, e.prNumber, e.prUrl, "",
   "TTL_EXPIRED"⟩

/-- The union computed by the sweeper `handler`: the expired list, then the
overdue list with every environment already present in the expired list (by
`virtualEnvId`) filtered out. -/
def environmentsToCleanup (envs : List SweepEnv) (now : Int) (graceMinutes : Int) :
    List SweepEnv :=
  let expiredEnvironments := findExpiredEnvironments envs now
  let overdueEnvironments := findOverdueEnvironments envs now graceMinutes
  expiredEnvironments ++ overdueEnvironments.filter (fun env =>
    ¬ expiredEnvironments.any (fun e2 => e2.virtualEnvId = env.virtualEnvId))

/-- The sweeper `handler`: union the two scans, deduplicating the overdue
list against the expired list by `virtualEnvId`, and emit one DESTROY event
per remaining environment. -/
def sweeperHandler (envs : List SweepEnv) (now : Int) (graceMinutes : Int) :
    List DestroyEvent :=
  (environmentsToCleanup envs now graceMinutes).map emitDestroyEvent

/-- The selection condition of the two sweeper scans combined. -/
def sweepCriteria (now graceMinutes : Int) (e : SweepEnv) : Prop :=
  (e.status = "ACTIVE" ∧ e.expiresAt < now)
  ∨ ((e.status = "CREATING" ∨ e.status = "UPDATING")
      ∧ e.expiresAt < now - graceMinutes * 60)

instance (now graceMinutes : Int) (e : SweepEnv) :
    Decidable (sweepCriteria now graceMinutes e) := by
  unfold sweepCriteria
  infer_instance

/-- A sample environments table for the sweeper: one expired ACTIVE
environment, one stuck CREATING environment past the grace period, one live
ACTIVE environment. -/
def sweepSample : List SweepEnv :=
  [⟨"pr-1", "ACTIVE", "org/repo", "b1", 1, "u1", 50⟩,
   ⟨"pr-2", "CREATING", "org/repo", "b2", 2, "u2", -1900⟩,
   ⟨"pr-3", "ACTIVE", "org/repo", "b3", 3, "u3", 500⟩]

end DynBranchEnv

namespace AllocRace

/-!
### Interleaved executions of `allocatePriority`

Concurrent `allocate` callers against the same routing domain are modelled
as a small-step transition system: each process takes a snapshot of the
priorities table (the pre-scan query), then scans candidates 1..100,
skipping snapshot members and otherwise attempting the conditional
create-if-absent, which succeeds exactly when the candidate is absent from
the CURRENT table.  The scheduler (an arbitrary list of process indices)
interleaves the processes' steps; there is no lock anywhere — the only
coordination is the conditional write. -/

inductive PState where
  | start : PState
  | scanning (snap : Finset ℕ) (next : ℕ) : PState
  | done (p : ℕ) : PState
  | failed : PState
deriving DecidableEq

structure AState where
  store : Finset ℕ
  procs : List PState
deriving DecidableEq

/-- One step of process `i`: take the snapshot, or advance the scan by one
candidate (skip / conditional-create failure / conditional-create success /
range exhausted). -/
def step (s : AState) (i : ℕ) : AState :=
  match s.procs.get? i with
  | some .start => { s with procs := s.procs.set i (.scanning s.store 1) }
  | some (.scanning snap p) =>
    if 100 < p then { s with procs := s.procs.set i .failed }
    else if p ∈ snap then { s with procs := s.procs.set i (.scanning snap (p + 1)) }
    else if p ∈ s.store then { s with procs := s.procs.set i (.scanning snap (p + 1)) }
    else { store := insert p s.store, procs := s.procs.set i (.done p) }
  | _ => s

/-- Run a whole schedule (interleaving) of process steps. -/
def run (s : AState) : List ℕ → AState
  | [] => s
  | i :: rest => run (step s i) rest

/-- `n` allocate calls racing against an initially empty priorities table. -/
def initState (n : ℕ) : AState := ⟨∅, List.replicate n .start⟩

/-- The priority a finished process returned, if it committed one. -/
def dv : PState → Option ℕ
  | .done p => some p
  | _ => none

/-- The priorities returned by the processes that have committed. -/
def doneVals (l : List PState) : List ℕ := l.filterMap dv

/-- A process that has finished (committed a priority or exhausted the
range). -/
def terminal : PState → Prop
  | .done _ => True
  | .failed => True
  | _ => False

instance (st : PState) : Decidable (terminal st) := by
  unfold terminal; cases st <;> infer_instance

/-- The execution invariant: a scanning process's snapshot is contained in
the current table and every candidate it has passed over is taken; the
table is exactly the set of committed priorities, which are pairwise
distinct; a failed process has witnessed the whole 1..100 range taken. -/
structure Inv (s : AState) : Prop where
  scan : ∀ i snap p, s.procs.get? i = some (.scanning snap p) →
    snap ⊆ s.store ∧ 1 ≤ p ∧ ∀ q, 1 ≤ q → q < p → q ∈ s.store
  store_eq : s.store = (doneVals s.procs).toFinset
  nodup : (doneVals s.procs).Nodup
  fail : ∀ i, s.procs.get? i = some .failed → ∀ q, 1 ≤ q → q ≤ 100 → q ∈ s.store

theorem doneVals_set_of_none {l : List PState} {i : ℕ} {st st' : PState}
    (h : l.get? i = some st) (h1 : dv st = none) (h2 : dv st' = none) :
    doneVals (l.set i st') = doneVals l := by
  induction l generalizing i with
  | nil => simp at h
  | cons a t ih =>
    cases i with
    | zero =>
      obtain rfl : a = st := by
        rw [List.get?_cons_zero, Option.some_inj] at h; exact h
      show List.filterMap dv (st' :: t) = List.filterMap dv (a :: t)
      rw [List.filterMap_cons, List.filterMap_cons, h1, h2]
    | succ j =>
      rw [List.get?_cons_succ] at h
      show List.filterMap dv (a :: t.set j st') = List.filterMap dv (a :: t)
      rw [List.filterMap_cons, List.filterMap_cons,
        show (t.set j st').filterMap dv = t.filterMap dv from ih h]

theorem doneVals_set_done {l : List PState} {i : ℕ} {st : PState} {p : ℕ}
    (h : l.get? i = some st) (h1 : dv st = none) :
    List.Perm (doneVals (l.set i (.done p))) (p :: doneVals l) := by
  induction l generalizing i with
  | nil => simp at h
  | cons a t ih =>
    cases i with
    | zero =>
      obtain rfl : a = st := by
        rw [List.get?_cons_zero, Option.some_inj] at h; exact h
      show List.Perm (List.filterMap dv (.done p :: t)) (p :: List.filterMap dv (a :: t))
      rw [List.filterMap_cons, List.filterMap_cons, h1]
      exact List.Perm.refl _
    | succ j =>
      rw [List.get?_cons_succ] at h
      show List.Perm (List.filterMap dv (a :: t.set j (.done p)))
        (p :: List.filterMap dv (a :: t))
      rw [List.filterMap_cons, List.filterMap_cons]
      cases hdva : dv a with
      | none => exact ih h
      | some x =>
        exact ((ih h).cons x).trans (List.Perm.swap p x _)

theorem doneVals_replicate_start (n : ℕ) :
    doneVals (List.replicate n .start) = [] := by
  induction n with
  | zero => rfl
  | succ m ih =>
    show List.filterMap dv (.start :: List.replicate m .start) = []
    rw [List.filterMap_cons]
    exact ih

theorem length_filterMap_lt {l : List PState} {i : ℕ} {st : PState}
    (h : l.get? i = some st) (h1 : dv st = none) :
    (l.filterMap dv).length < l.length := by
  induction l generalizing i with
  | nil => simp at h
  | cons a t ih =>
    cases i with
    | zero =>
      obtain rfl : a = st := by
        rw [List.get?_cons_zero, Option.some_inj] at h; exact h
      rw [List.filterMap_cons, h1]
      have := List.length_filterMap_le dv t
      simp only [List.length_cons]
      omega
    | succ j =>
      rw [List.get?_cons_succ] at h
      rw [List.filterMap_cons]
      have := ih h
      cases hdva : dv a with
      | none => simp only [List.length_cons]; omega
      | some x => simp only [List.length_cons, List.length_cons]; omega

theorem inv_init (n : ℕ) : Inv (initState n) := by
  constructor
  · intro i snap p h
    have := List.eq_of_mem_replicate (List.get?_mem h)
    cases this
  · show (∅ : Finset ℕ) = _
    rw [initState, doneVals_replicate_start]; rfl
  · show (doneVals (List.replicate n .start)).Nodup
    rw [doneVals_replicate_start]; exact List.nodup_nil
  · intro i h
    have := List.eq_of_mem_replicate (List.get?_mem h)
    cases this

end AllocRace

namespace DynBranchEnv

theorem allocScanAttempts_sublist (used : Finset ℕ) (cas : ℕ → Bool) :
    ∀ l : List ℕ, (allocScanAttempts used cas l).Sublist l := by
  intro l
  induction l with
  | nil => exact List.Sublist.refl []
  | cons p rest ih =>
    show (if p ∈ used then allocScanAttempts used cas rest
      else if cas p then [p] else p :: allocScanAttempts used cas rest).Sublist (p :: rest)
    by_cases h1 : p ∈ used
    · rw [if_pos h1]; exact ih.cons p
    rw [if_neg h1]
    by_cases h2 : cas p
    · rw [if_pos h2]; exact (List.nil_sublist rest).cons₂ p
    · rw [if_neg h2]; exact ih.cons₂ p

theorem mem_allocScanAttempts (used : Finset ℕ) (cas : ℕ → Bool) :
    ∀ (l : List ℕ) q, q ∈ allocScanAttempts used cas l → q ∈ l ∧ q ∉ used := by
  intro l
  induction l with
  | nil => intro q h; cases h
  | cons p rest ih =>
    intro q
    show q ∈ (if p ∈ used then allocScanAttempts used cas rest
      else if cas p then [p] else p :: allocScanAttempts used cas rest) → _
    by_cases h1 : p ∈ used
    · rw [if_pos h1]
      intro h
      obtain ⟨hm, hu⟩ := ih q h
      exact ⟨List.mem_cons_of_mem p hm, hu⟩
    rw [if_neg h1]
    by_cases h2 : cas p
    · rw [if_pos h2]
      intro h
      rw [List.mem_singleton] at h
      subst h
      exact ⟨List.mem_cons_self _ _, h1⟩
    · rw [if_neg h2]
      intro h
      rcases List.mem_cons.mp h with rfl | h
      · exact ⟨List.mem_cons_self _ _, h1⟩
      · obtain ⟨hm, hu⟩ := ih q h
        exact ⟨List.mem_cons_of_mem p hm, hu⟩

theorem allocScan_some (used : Finset ℕ) (cas : ℕ → Bool) :
    ∀ (l : List ℕ) q, allocScan used cas l = some q →
      q ∈ l ∧ q ∉ used ∧ cas q = true
      ∧ (l.Pairwise (· < ·) → ∀ r ∈ l, r < q → r ∈ used ∨ cas r = false) := by
  intro l
  induction l with
  | nil => intro q h; cases h
  | cons p rest ih =>
    intro q
    show (if p ∈ used then allocScan used cas rest
      else if cas p then some p else allocScan used cas rest) = some q → _
    by_cases h1 : p ∈ used
    · rw [if_pos h1]
      intro h
      obtain ⟨hm, hu, hc, hfirst⟩ := ih q h
      refine ⟨List.mem_cons_of_mem p hm, hu, hc, ?_⟩
      intro hpw r hr hrq
      rcases List.mem_cons.mp hr with rfl | hr
      · exact Or.inl h1
      · exact hfirst hpw.of_cons r hr hrq
    rw [if_neg h1]
    by_cases h2 : cas p
    · rw [if_pos h2]
      intro h
      rw [Option.some_inj] at h
      subst h
      refine ⟨List.mem_cons_self _ _, h1, h2, ?_⟩
      intro hpw r hr hrq
      rcases List.mem_cons.mp hr with rfl | hr
      · omega
      · have := (List.pairwise_cons.mp hpw).1 r hr
        omega
    · rw [if_neg h2]
      intro h
      obtain ⟨hm, hu, hc, hfirst⟩ := ih q h
      refine ⟨List.mem_cons_of_mem p hm, hu, hc, ?_⟩
      intro hpw r hr hrq
      rcases List.mem_cons.mp hr with rfl | hr
      · exact Or.inr (Bool.eq_false_iff.mpr h2)
      · exact hfirst hpw.of_cons r hr hrq

theorem allocScan_none (used : Finset ℕ) (cas : ℕ → Bool) :
    ∀ l : List ℕ, allocScan used cas l = none ↔ ∀ r ∈ l, r ∈ used ∨ cas r = false := by
  intro l
  induction l with
  | nil => constructor <;> intro _ <;> simp [allocScan]
  | cons p rest ih =>
    show (if p ∈ used then allocScan used cas rest
      else if cas p then some p else allocScan used cas rest) = none ↔ _
    by_cases h1 : p ∈ used
    · rw [if_pos h1, ih]
      constructor
      · intro h r hr
        rcases List.mem_cons.mp hr with rfl | hr
        · exact Or.inl h1
        · exact h r hr
      · intro h r hr
        exact h r (List.mem_cons_of_mem p hr)
    rw [if_neg h1]
    by_cases h2 : cas p
    · rw [if_pos h2]
      constructor
      · intro h; cases h
      · intro h
        rcases h p (List.mem_cons_self p rest) with h' | h'
        · exact absurd h' h1
        · exact absurd h' (by simp [h2])
    · rw [if_neg h2, ih]
      constructor
      · intro h r hr
        rcases List.mem_cons.mp hr with rfl | hr
        · exact Or.inr (Bool.eq_false_iff.mpr h2)
        · exact h r hr
      · intro h r hr
        exact h r (List.mem_cons_of_mem p hr)

theorem priorityRange_pairwise : priorityRange.Pairwise (· < ·) :=
  List.pairwise_lt_range' 1 100

theorem mem_priorityRange (q : ℕ) : q ∈ priorityRange ↔ 1 ≤ q ∧ q ≤ 100 := by
  unfold priorityRange
  rw [List.mem_range'_1]
  omega

theorem allocScanAttempts_pairwise (used : Finset ℕ) (cas : ℕ → Bool) :
    (allocScanAttempts used cas priorityRange).Pairwise (· < ·) :=
  List.Pairwise.sublist (allocScanAttempts_sublist used cas priorityRange)
    priorityRange_pairwise

theorem allocScanAttempts_nodup (used : Finset ℕ) (cas : ℕ → Bool) :
    (allocScanAttempts used cas priorityRange).Nodup :=
  (allocScanAttempts_pairwise used cas).imp (fun {a b} hab => Nat.ne_of_lt hab)

end DynBranchEnv

namespace AllocRace

theorem get?_set_self {α : Type} {l : List α} {i : ℕ} {a b : α}
    (h : l.get? i = some a) : (l.set i b).get? i = some b := by
  rw [List.get?_set_eq, h]; rfl

theorem inv_step {s : AState} (hs : Inv s) (i : ℕ) : Inv (step s i) := by
  rcases hget : s.procs.get? i with _ | st
  · have heq : step s i = s := by unfold step; rw [hget]
    rw [heq]; exact hs
  cases st with
  | done p =>
    have heq : step s i = s := by unfold step; rw [hget]
    rw [heq]; exact hs
  | failed =>
    have heq : step s i = s := by unfold step; rw [hget]
    rw [heq]; exact hs
  | start =>
    have heq : step s i = { s with procs := s.procs.set i (.scanning s.store 1) } := by
      unfold step; rw [hget]
    rw [heq]
    refine ⟨?_, ?_, ?_, ?_⟩
    · intro j snap p hj
      by_cases hij : i = j
      · subst hij
        rw [get?_set_self hget, Option.some_inj] at hj
        cases hj
        exact ⟨Finset.Subset.refl _, le_refl 1, fun q hq1 hq2 => absurd hq1 (by omega)⟩
      · rw [List.get?_set_ne _ _ hij] at hj
        exact hs.scan j snap p hj
    · show s.store = _
      rw [show doneVals (s.procs.set i (.scanning s.store 1)) = doneVals s.procs from
        doneVals_set_of_none hget rfl rfl]
      exact hs.store_eq
    · show (doneVals (s.procs.set i (.scanning s.store 1))).Nodup
      rw [show doneVals (s.procs.set i (.scanning s.store 1)) = doneVals s.procs from
        doneVals_set_of_none hget rfl rfl]
      exact hs.nodup
    · intro j hj
      by_cases hij : i = j
      · subst hij
        rw [get?_set_self hget, Option.some_inj] at hj
        cases hj
      · rw [List.get?_set_ne _ _ hij] at hj
        exact hs.fail j hj
  | scanning snap p =>
    obtain ⟨hsub, hp1, hbelow⟩ := hs.scan i snap p hget
    by_cases h1 : 100 < p
    · have heq : step s i = { s with procs := s.procs.set i .failed } := by
        unfold step; rw [hget]; dsimp only; rw [if_pos h1]
      rw [heq]
      refine ⟨?_, ?_, ?_, ?_⟩
      · intro j snap' p' hj
        by_cases hij : i = j
        · subst hij
          rw [get?_set_self hget, Option.some_inj] at hj
          cases hj
        · rw [List.get?_set_ne _ _ hij] at hj
          exact hs.scan j snap' p' hj
      · show s.store = _
        rw [show doneVals (s.procs.set i .failed) = doneVals s.procs from
          doneVals_set_of_none hget rfl rfl]
        exact hs.store_eq
      · show (doneVals (s.procs.set i .failed)).Nodup
        rw [show doneVals (s.procs.set i .failed) = doneVals s.procs from
          doneVals_set_of_none hget rfl rfl]
        exact hs.nodup
      · intro j hj
        by_cases hij : i = j
        · intro q hq1 hq2
          exact hbelow q hq1 (by omega)
        · rw [List.get?_set_ne _ _ hij] at hj
          exact hs.fail j hj
    · have hadv : ∀ hyp : p ∈ s.store ∨ p ∈ snap,
          Inv { s with procs := s.procs.set i (.scanning snap (p + 1)) } := by
        intro hyp
        refine ⟨?_, ?_, ?_, ?_⟩
        · intro j snap' p' hj
          by_cases hij : i = j
          · subst hij
            rw [get?_set_self hget, Option.some_inj] at hj
            cases hj
            refine ⟨hsub, by omega, ?_⟩
            intro q hq1 hq2
            by_cases hqp : q = p
            · subst hqp
              rcases hyp with h | h
              · exact h
              · exact hsub h
            · exact hbelow q hq1 (by omega)
          · rw [List.get?_set_ne _ _ hij] at hj
            exact hs.scan j snap' p' hj
        · show s.store = _
          rw [show doneVals (s.procs.set i (.scanning snap (p + 1))) = doneVals s.procs from
            doneVals_set_of_none hget rfl rfl]
          exact hs.store_eq
        · show (doneVals (s.procs.set i (.scanning snap (p + 1)))).Nodup
          rw [show doneVals (s.procs.set i (.scanning snap (p + 1))) = doneVals s.procs from
            doneVals_set_of_none hget rfl rfl]
          exact hs.nodup
        · intro j hj
          by_cases hij : i = j
          · subst hij
            rw [get?_set_self hget, Option.some_inj] at hj
            cases hj
          · rw [List.get?_set_ne _ _ hij] at hj
            exact hs.fail j hj
      by_cases h2 : p ∈ snap
      · have heq : step s i = { s with procs := s.procs.set i (.scanning snap (p + 1)) } := by
          unfold step; rw [hget]; dsimp only; rw [if_neg h1, if_pos h2]
        rw [heq]
        exact hadv (Or.inr h2)
      by_cases h3 : p ∈ s.store
      · have heq : step s i = { s with procs := s.procs.set i (.scanning snap (p + 1)) } := by
          unfold step; rw [hget]; dsimp only; rw [if_neg h1, if_neg h2, if_pos h3]
        rw [heq]
        exact hadv (Or.inl h3)
      · have heq : step s i =
            { store := insert p s.store, procs := s.procs.set i (.done p) } := by
          unfold step; rw [hget]; dsimp only; rw [if_neg h1, if_neg h2, if_neg h3]
        rw [heq]
        have hperm : List.Perm (doneVals (s.procs.set i (.done p))) (p :: doneVals s.procs) :=
          doneVals_set_done hget rfl
        have hpnot : p ∉ doneVals s.procs := by
          intro hmem
          exact h3 (hs.store_eq ▸ List.mem_toFinset.mpr hmem)
        refine ⟨?_, ?_, ?_, ?_⟩
        · intro j snap' p' hj
          by_cases hij : i = j
          · subst hij
            rw [get?_set_self hget, Option.some_inj] at hj
            cases hj
          · rw [List.get?_set_ne _ _ hij] at hj
            obtain ⟨ha, hb, hc⟩ := hs.scan j snap' p' hj
            exact ⟨ha.trans (Finset.subset_insert p s.store), hb,
              fun q hq1 hq2 => Finset.mem_insert_of_mem (hc q hq1 hq2)⟩
        · show insert p s.store = _
          rw [List.toFinset_eq_of_perm _ _ hperm]
          rw [List.toFinset_cons, hs.store_eq]
        · exact hperm.nodup_iff.mpr (List.nodup_cons.mpr ⟨hpnot, hs.nodup⟩)
        · intro j hj
          by_cases hij : i = j
          · subst hij
            rw [get?_set_self hget, Option.some_inj] at hj
            cases hj
          · rw [List.get?_set_ne _ _ hij] at hj
            exact fun q hq1 hq2 => Finset.mem_insert_of_mem (hs.fail j hj q hq1 hq2)

theorem inv_run {s : AState} (hs : Inv s) (sched : List ℕ) : Inv (run s sched) := by
  induction sched generalizing s with
  | nil => exact hs
  | cons i rest ih => exact ih (inv_step hs i)

theorem step_length (s : AState) (i : ℕ) :
    (step s i).procs.length = s.procs.length := by
  unfold step
  rcases hget : s.procs.get? i with _ | st
  · rfl
  cases st with
  | start => simp [List.length_set]
  | done p => rfl
  | failed => rfl
  | scanning snap p =>
    dsimp only
    by_cases h1 : 100 < p
    · rw [if_pos h1]; simp [List.length_set]
    rw [if_neg h1]
    by_cases h2 : p ∈ snap
    · rw [if_pos h2]; simp [List.length_set]
    rw [if_neg h2]
    by_cases h3 : p ∈ s.store
    · rw [if_pos h3]; simp [List.length_set]
    · rw [if_neg h3]; simp [List.length_set]

theorem run_length (s : AState) (sched : List ℕ) :
    (run s sched).procs.length = s.procs.length := by
  induction sched generalizing s with
  | nil => rfl
  | cons i rest ih => rw [run, ih, step_length]

theorem length_filterMap_eq_of_isSome {l : List PState}
    (h : ∀ st ∈ l, (dv st).isSome) : (l.filterMap dv).length = l.length := by
  induction l with
  | nil => rfl
  | cons a t ih =>
    rw [List.filterMap_cons]
    cases hdva : dv a with
    | none =>
      have := h a (List.mem_cons_self a t)
      rw [hdva] at this
      cases this
    | some x =>
      rw [List.length_cons, List.length_cons,
        ih (fun st hst => h st (List.mem_cons_of_mem a hst))]

end AllocRace

namespace DynBranchEnv

/-! ### State-store access lemmas -/

theorem getEnv_updateEnvRecord (l : List (String × VirtualEnvironment)) (id : String)
    (f : VirtualEnvironment → VirtualEnvironment) :
    getEnv (updateEnvRecord l id f) id = (getEnv l id).map f := by
  induction l with
  | nil => rfl
  | cons kv t ih =>
    show getEnv ((if kv.1 = id then (kv.1, f kv.2) else kv) :: updateEnvRecord t id f) id = _
    by_cases h : kv.1 = id
    · rw [if_pos h]
      show (List.find? _ ((kv.1, f kv.2) :: updateEnvRecord t id f)).map _ = _
      rw [List.find?_cons_of_pos _ (by simpa using h),
        show getEnv (kv :: t) id = some kv.2 from by
          show (List.find? _ (kv :: t)).map _ = _
          rw [List.find?_cons_of_pos _ (by simpa using h)]
          rfl]
      rfl
    · rw [if_neg h]
      show (List.find? _ (kv :: updateEnvRecord t id f)).map _ = _
      rw [List.find?_cons_of_neg _ (by simpa using h)]
      rw [show ((getEnv (kv :: t) id).map f : Option VirtualEnvironment)
          = (getEnv t id).map f from by
        show ((List.find? _ (kv :: t)).map _).map f = _
        rw [List.find?_cons_of_neg _ (by simpa using h)]
        rfl]
      exact ih

theorem getEnv_putEnv (l : List (String × VirtualEnvironment)) (id : String)
    (e : VirtualEnvironment) : getEnv (putEnv l id e) id = some e := by
  induction l with
  | nil =>
    show (List.find? _ [(id, e)]).map _ = _
    rw [List.find?_cons_of_pos _ (by simp)]
    rfl
  | cons kv t ih =>
    show getEnv (if kv.1 = id then (id, e) :: t else kv :: putEnv t id e) id = _
    by_cases h : kv.1 = id
    · rw [if_pos h]
      show (List.find? _ ((id, e) :: t)).map _ = _
      rw [List.find?_cons_of_pos _ (by simp)]
      rfl
    · rw [if_neg h]
      show (List.find? _ (kv :: putEnv t id e)).map _ = _
      rw [List.find?_cons_of_neg _ (by simpa using h)]
      exact ih

theorem cleanupService_fst_environments (orc : Oracle) (w : World)
    (envId sid : String) (st : ServiceState) :
    (cleanupService orc w envId sid st).1.environments = w.environments := by
  unfold cleanupService
  cases getCfg w.routingConfigs sid envId <;> rfl

theorem cleanupService_fst_routingConfigs (orc : Oracle) (w : World)
    (envId sid : String) (st : ServiceState) :
    (cleanupService orc w envId sid st).1.routingConfigs = w.routingConfigs := by
  unfold cleanupService
  cases getCfg w.routingConfigs sid envId <;> rfl

theorem cleanupServices_fst_environments (orc : Oracle) (envId : String) :
    ∀ (l : List (String × ServiceState)) (w : World),
      (cleanupServices orc w envId l).1.environments = w.environments := by
  intro l
  induction l with
  | nil => intro w; rfl
  | cons kv rest ih =>
    intro w
    show (cleanupServices orc (cleanupService orc w envId kv.1 kv.2).1 envId rest).1.environments = _
    rw [ih, cleanupService_fst_environments]

theorem cleanupServices_fst_routingConfigs (orc : Oracle) (envId : String) :
    ∀ (l : List (String × ServiceState)) (w : World),
      (cleanupServices orc w envId l).1.routingConfigs = w.routingConfigs := by
  intro l
  induction l with
  | nil => intro w; rfl
  | cons kv rest ih =>
    intro w
    show (cleanupServices orc (cleanupService orc w envId kv.1 kv.2).1 envId rest).1.routingConfigs = _
    rw [ih, cleanupService_fst_routingConfigs]

theorem handleDestroy_res (orc : Oracle) (now : ℕ) (w : World) (id : String) :
    (handleDestroy orc now w id).res = .ok () := by
  unfold handleDestroy
  cases getEnv w.environments id <;> rfl

theorem handleDestroy_none (orc : Oracle) (now : ℕ) (w : World) (id : String)
    (h : getEnv w.environments id = none) :
    handleDestroy orc now w id = ⟨w, [], .ok ()⟩ := by
  unfold handleDestroy
  rw [h]

theorem handleDestroy_some_status (orc : Oracle) (now : ℕ) (w : World) (id : String)
    (e : VirtualEnvironment) (h : getEnv w.environments id = some e) :
    ∃ e', getEnv (handleDestroy orc now w id).w.environments id = some e'
      ∧ e'.status = "DESTROYED" := by
  unfold handleDestroy
  rw [h]
  dsimp only
  rw [show (cleanupRoutingConfig (cleanupServices orc
      { w with environments := setEnvStatus w.environments id "DESTROYING" now }
      id e.services).1 id).1.environments
    = (cleanupServices orc
      { w with environments := setEnvStatus w.environments id "DESTROYING" now }
      id e.services).1.environments from rfl]
  rw [cleanupServices_fst_environments]
  show ∃ e', getEnv (setEnvStatus (setEnvStatus w.environments id "DESTROYING" now)
    id "DESTROYED" now) id = some e' ∧ _
  unfold setEnvStatus
  rw [getEnv_updateEnvRecord, getEnv_updateEnvRecord, h]
  exact ⟨_, rfl, rfl⟩

/-- Claim C6: DESTROY for an environmentId with no record is a no-op that
completes successfully without modifying any state; DESTROY never returns
an error for any oracle (teardown-target-missing and backend step failures
are treated as success); and issuing DESTROY twice for the same id also
completes without error, leaving the record in status DESTROYED. -/
theorem claim_C6 :
    (∀ orc now w id, getEnv w.environments id = none →
        handleDestroy orc now w id = ⟨w, [], .ok ()⟩)
    ∧ (∀ orc now w id, (handleDestroy orc now w id).res = .ok ())
    ∧ (∀ orc orc' now now' w id e, getEnv w.environments id = some e →
        (handleDestroy orc' now' (handleDestroy orc now w id).w id).res = .ok ()
        ∧ ∃ e', getEnv (handleDestroy orc' now'
              (handleDestroy orc now w id).w id).w.environments id = some e'
            ∧ e'.status = "DESTROYED") := by
  refine ⟨handleDestroy_none, handleDestroy_res, ?_⟩
  intro orc orc' now now' w id e h
  refine ⟨handleDestroy_res _ _ _ _, ?_⟩
  obtain ⟨e1, he1, _⟩ := handleDestroy_some_status orc now w id e h
  exact handleDestroy_some_status orc' now' _ id e1 he1

theorem claim_C6_witness :
    (handleDestroy (fun _ => false) 5
        (handleDestroy (fun _ => false) 4 sampleWorld "pr-1").w "pr-1").res = .ok ()
    ∧ ∃ e', getEnv (handleDestroy (fun _ => false) 5
          (handleDestroy (fun _ => false) 4 sampleWorld "pr-1").w "pr-1").w.environments "pr-1"
        = some e' ∧ e'.status = "DESTROYED" :=
  claim_C6.2.2 (fun _ => false) (fun _ => false) 4 5 sampleWorld "pr-1" sampleEnv rfl

end DynBranchEnv

namespace DynBranchEnv

/-! ### Allocator result lemmas -/

theorem allocatePriority_ok (orc : Oracle) (w : World) (p : ℕ)
    (h : (allocatePriority orc w).res = .ok p) :
    allocScan w.priorities (allocCas orc w.priorities) priorityRange = some p
    ∧ (allocatePriority orc w).w = { w with priorities := insert p w.priorities } := by
  cases ha : allocScan w.priorities (allocCas orc w.priorities) priorityRange with
  | none =>
    have hres : (allocatePriority orc w).res = .error .resourceExhausted := by
      unfold allocatePriority
      dsimp only
      rw [ha]
    rw [hres] at h
    cases h
  | some q =>
    have hw : allocatePriority orc w =
        ⟨{ w with priorities := insert q w.priorities },
         (allocScanAttempts w.priorities (allocCas orc w.priorities) priorityRange).map
           Op.putPriority,
         .ok q⟩ := by
      unfold allocatePriority
      dsimp only
      rw [ha]
    rw [hw] at h
    injection h with h
    subst h
    rw [hw]
    exact ⟨rfl, rfl⟩

theorem allocatePriority_none (orc : Oracle) (w : World)
    (h : allocScan w.priorities (allocCas orc w.priorities) priorityRange = none) :
    allocatePriority orc w =
      ⟨w, (allocScanAttempts w.priorities (allocCas orc w.priorities) priorityRange).map
        Op.putPriority, .error .resourceExhausted⟩ := by
  unfold allocatePriority
  dsimp only
  rw [h]

/-- Claim C9: a priority obtained from allocate, once released, can be
returned again by the next allocate in the same domain (in the
interference-free case it necessarily is); after release no allocation
record for the priority remains; release is an unconditional delete that
succeeds and is a no-op when the row is already missing. -/
theorem claim_C9 :
    (∀ orc w p, (∀ q, orc (Op.putPriority q) = false) →
        (allocatePriority orc w).res = .ok p →
        p ∉ w.priorities
        ∧ (releasePriority (allocatePriority orc w).w p).1 = w
        ∧ p ∉ (releasePriority (allocatePriority orc w).w p).1.priorities
        ∧ (allocatePriority orc
            (releasePriority (allocatePriority orc w).w p).1).res = .ok p)
    ∧ (∀ w p, p ∉ (releasePriority w p).1.priorities)
    ∧ (∀ w p, p ∉ w.priorities → (releasePriority w p).1 = w) := by
  refine ⟨?_, ?_, ?_⟩
  · intro orc w p _ h
    obtain ⟨hscan, hw⟩ := allocatePriority_ok orc w p h
    obtain ⟨_, hp, _, _⟩ := allocScan_some _ _ _ p hscan
    have hrel : (releasePriority (allocatePriority orc w).w p).1 = w := by
      rw [hw]
      show { w with priorities := (insert p w.priorities).erase p } = w
      rw [Finset.erase_insert hp]
    refine ⟨hp, hrel, ?_, ?_⟩
    · rw [hrel]; exact hp
    · rw [hrel]; exact h
  · intro w p
    exact Finset.not_mem_erase p w.priorities
  · intro w p hp
    show { w with priorities := w.priorities.erase p } = w
    rw [Finset.erase_eq_of_not_mem hp]

theorem claim_C9_witness :
    1 ∉ emptyWorld.priorities
    ∧ (releasePriority (allocatePriority okOrc emptyWorld).w 1).1 = emptyWorld
    ∧ 1 ∉ (releasePriority (allocatePriority okOrc emptyWorld).w 1).1.priorities
    ∧ (allocatePriority okOrc
        (releasePriority (allocatePriority okOrc emptyWorld).w 1).1).res = .ok 1 :=
  claim_C9.1 okOrc emptyWorld 1 (fun _ => rfl) rfl

/-- Claim C5: the allocator scans the 1..100 range in ascending order,
attempts the conditional create only on candidates outside the pre-scanned
in-use set, never re-attempts a candidate, returns the first candidate that
commits, and after a full unsuccessful scan fails with the dedicated
resource-exhaustion error (a constructor distinct from every backend
error), which `deployService` propagates rather than swallowing. -/
theorem claim_C5 :
    (∀ (used : Finset ℕ) (cas : ℕ → Bool),
      (allocScanAttempts used cas priorityRange).Pairwise (· < ·)
      ∧ (allocScanAttempts used cas priorityRange).Nodup
      ∧ (∀ q ∈ allocScanAttempts used cas priorityRange, q ∉ used ∧ 1 ≤ q ∧ q ≤ 100)
      ∧ (∀ q, allocScan used cas priorityRange = some q →
          q ∉ used ∧ cas q = true ∧ 1 ≤ q ∧ q ≤ 100
          ∧ ∀ r, 1 ≤ r → r ≤ 100 → r < q → r ∈ used ∨ cas r = false)
      ∧ (allocScan used cas priorityRange = none ↔
          ∀ r, 1 ≤ r → r ≤ 100 → r ∈ used ∨ cas r = false))
    ∧ (∀ orc w, allocScan w.priorities (allocCas orc w.priorities) priorityRange = none →
        (allocatePriority orc w).res = .error CtrlError.resourceExhausted
        ∧ (allocatePriority orc w).w = w)
    ∧ (∀ op, CtrlError.resourceExhausted ≠ CtrlError.awsError op)
    ∧ (∀ orc w envId svc expiresAt,
        orc (Op.registerTaskDef envId svc.serviceId) = false →
        orc (Op.createTargetGroup envId svc.serviceId) = false →
        allocScan w.priorities (allocCas orc w.priorities) priorityRange = none →
        (deployService orc w envId svc expiresAt).res
          = .error CtrlError.resourceExhausted) := by
  refine ⟨?_, ?_, ?_, ?_⟩
  · intro used cas
    refine ⟨allocScanAttempts_pairwise used cas, allocScanAttempts_nodup used cas, ?_, ?_, ?_⟩
    · intro q hq
      obtain ⟨hmem, hused⟩ := mem_allocScanAttempts used cas priorityRange q hq
      obtain ⟨h1, h2⟩ := (mem_priorityRange q).mp hmem
      exact ⟨hused, h1, h2⟩
    · intro q hq
      obtain ⟨hmem, hused, hcas, hfirst⟩ := allocScan_some used cas priorityRange q hq
      obtain ⟨h1, h2⟩ := (mem_priorityRange q).mp hmem
      refine ⟨hused, hcas, h1, h2, ?_⟩
      intro r hr1 hr2 hrq
      exact hfirst priorityRange_pairwise r ((mem_priorityRange r).mpr ⟨hr1, hr2⟩) hrq
    · rw [allocScan_none used cas priorityRange]
      constructor
      · intro h r hr1 hr2
        exact h r ((mem_priorityRange r).mpr ⟨hr1, hr2⟩)
      · intro h r hr
        obtain ⟨h1, h2⟩ := (mem_priorityRange r).mp hr
        exact h r h1 h2
  · intro orc w h
    rw [allocatePriority_none orc w h]
    exact ⟨rfl, rfl⟩
  · intro op h
    cases h
  · intro orc w envId svc expiresAt h1 h2 hscan
    show (deployService orc w envId svc expiresAt).res = _
    unfold deployService
    dsimp only
    rw [h1, if_neg (by simp), h2, if_neg (by simp),
      allocatePriority_none orc w hscan]

theorem claim_C5_witness :
    2 ∉ ({1} : Finset ℕ) ∧ (fun q => decide (q = 2)) 2 = true ∧ 1 ≤ 2 ∧ 2 ≤ 100
    ∧ ∀ r, 1 ≤ r → r ≤ 100 → r < 2 →
        r ∈ ({1} : Finset ℕ) ∨ (fun q => decide (q = 2)) r = false :=
  (claim_C5.1 ({1} : Finset ℕ) (fun q => decide (q = 2))).2.2.2.1 2 rfl

/-- Claim C1: in every interleaved execution of concurrent allocate calls
against the same domain — coordinated only by the store's create-if-absent
conditional write, with no application-level lock — the committed
priorities are pairwise distinct and the priorities table holds exactly one
record per committed priority; when at most 100 callers race (range size
M = 100 ≥ N), no caller can fail, so every completed execution ends with
all N calls succeeding with N distinct priorities. -/
theorem claim_C1 (n : ℕ) (sched : List ℕ) :
    (AllocRace.doneVals (AllocRace.run (AllocRace.initState n) sched).procs).Nodup
    ∧ (AllocRace.run (AllocRace.initState n) sched).store
        = (AllocRace.doneVals (AllocRace.run (AllocRace.initState n) sched).procs).toFinset
    ∧ (n ≤ 100 →
        (∀ i, (AllocRace.run (AllocRace.initState n) sched).procs.get? i
            ≠ some AllocRace.PState.failed)
        ∧ ((∀ st ∈ (AllocRace.run (AllocRace.initState n) sched).procs,
              AllocRace.terminal st) →
            (AllocRace.doneVals (AllocRace.run (AllocRace.initState n) sched).procs).length
              = n)) := by
  have inv := AllocRace.inv_run (AllocRace.inv_init n) sched
  have hlen : (AllocRace.run (AllocRace.initState n) sched).procs.length = n := by
    rw [AllocRace.run_length]
    exact List.length_replicate n _
  have hnofail : n ≤ 100 → ∀ i,
      (AllocRace.run (AllocRace.initState n) sched).procs.get? i
        ≠ some AllocRace.PState.failed := by
    intro hn i hfail
    have hsub : Finset.Icc 1 100 ⊆ (AllocRace.run (AllocRace.initState n) sched).store := by
      intro q hq
      rw [Finset.mem_Icc] at hq
      exact inv.fail i hfail q hq.1 hq.2
    have hcard1 : (100 : ℕ) ≤ (AllocRace.run (AllocRace.initState n) sched).store.card := by
      have := Finset.card_le_card hsub
      rw [Nat.card_Icc] at this
      omega
    have hcard2 : (AllocRace.run (AllocRace.initState n) sched).store.card
        = (AllocRace.doneVals (AllocRace.run (AllocRace.initState n) sched).procs).length := by
      rw [inv.store_eq]
      exact List.toFinset_card_of_nodup inv.nodup
    have hlt : (AllocRace.doneVals
        (AllocRace.run (AllocRace.initState n) sched).procs).length
          < (AllocRace.run (AllocRace.initState n) sched).procs.length :=
      AllocRace.length_filterMap_lt hfail rfl
    omega
  refine ⟨inv.nodup, inv.store_eq, ?_⟩
  intro hn
  refine ⟨hnofail hn, ?_⟩
  intro hterm
  rw [show (AllocRace.doneVals (AllocRace.run (AllocRace.initState n) sched).procs)
      = (AllocRace.run (AllocRace.initState n) sched).procs.filterMap AllocRace.dv from rfl]
  rw [AllocRace.length_filterMap_eq_of_isSome, hlen]
  intro st hst
  obtain ⟨i, hi⟩ := List.get?_of_mem hst
  cases st with
  | start => exact absurd (hterm _ hst) (by simp [AllocRace.terminal])
  | scanning snap p => exact absurd (hterm _ hst) (by simp [AllocRace.terminal])
  | failed => exact absurd hi (hnofail hn i)
  | done p => rfl

theorem claim_C1_witness :
    (AllocRace.doneVals (AllocRace.run (AllocRace.initState 3)
      [0, 1, 2, 0, 1, 1, 2, 2, 2]).procs).length = 3 :=
  ((claim_C1 3 [0, 1, 2, 0, 1, 1, 2, 2, 2]).2.2 (by decide)).2 (by decide)

end DynBranchEnv

namespace DynBranchEnv

/-! ### Sweeper lemmas -/

theorem mem_findExpired (envs : List SweepEnv) (now : Int) (e : SweepEnv) :
    e ∈ findExpiredEnvironments envs now ↔
      e ∈ envs ∧ e.status = "ACTIVE" ∧ e.expiresAt < now := by
  unfold findExpiredEnvironments
  rw [List.mem_filter]
  simp

theorem mem_findOverdue (envs : List SweepEnv) (now graceMinutes : Int) (e : SweepEnv) :
    e ∈ findOverdueEnvironments envs now graceMinutes ↔
      e ∈ envs ∧ (e.status = "CREATING" ∨ e.status = "UPDATING")
        ∧ e.expiresAt < now - graceMinutes * 60 := by
  unfold findOverdueEnvironments
  rw [List.mem_filter]
  simp

theorem environmentsToCleanup_subset (envs : List SweepEnv) (now graceMinutes : Int) :
    ∀ e ∈ environmentsToCleanup envs now graceMinutes, e ∈ envs := by
  intro e he
  unfold environmentsToCleanup at he
  rcases List.mem_append.mp he with h | h
  · exact ((mem_findExpired envs now e).mp h).1
  · exact ((mem_findOverdue envs now graceMinutes e).mp (List.mem_of_mem_filter h)).1

theorem mem_environmentsToCleanup (envs : List SweepEnv) (now graceMinutes : Int)
    (h : (envs.map (fun e => e.virtualEnvId)).Nodup) (e : SweepEnv) (he : e ∈ envs) :
    e ∈ environmentsToCleanup envs now graceMinutes ↔ sweepCriteria now graceMinutes e := by
  have hinj := List.inj_on_of_nodup_map h
  unfold environmentsToCleanup sweepCriteria
  constructor
  · intro hm
    rcases List.mem_append.mp hm with hx | hx
    · exact Or.inl ((mem_findExpired envs now e).mp hx).2
    · exact Or.inr ((mem_findOverdue envs now graceMinutes e).mp
        (List.mem_of_mem_filter hx)).2
  · intro hc
    rcases hc with hc | hc
    · exact List.mem_append_left _ ((mem_findExpired envs now e).mpr ⟨he, hc⟩)
    · refine List.mem_append_right _ (List.mem_filter.mpr
        ⟨(mem_findOverdue envs now graceMinutes e).mpr ⟨he, hc⟩, ?_⟩)
      simp only [decide_eq_true_eq, List.any_eq_true, not_exists, not_and]
      intro x hx
      have hxe := (mem_findExpired envs now x).mp hx
      intro hid
      have hid' : x.virtualEnvId = e.virtualEnvId := by simpa using hid
      have hxeq : x = e := hinj hxe.1 he hid'
      subst hxeq
      rcases hc.1 with hs | hs
      · rw [hxe.2.1] at hs; exact absurd hs (by decide)
      · rw [hxe.2.1] at hs; exact absurd hs (by decide)

theorem environmentsToCleanup_ids_nodup (envs : List SweepEnv) (now graceMinutes : Int)
    (h : (envs.map (fun e => e.virtualEnvId)).Nodup) :
    ((environmentsToCleanup envs now graceMinutes).map (fun e => e.virtualEnvId)).Nodup := by
  unfold environmentsToCleanup
  rw [List.map_append, List.nodup_append]
  refine ⟨?_, ?_, ?_⟩
  · exact h.sublist (List.Sublist.map _ (List.filter_sublist envs))
  · exact h.sublist (List.Sublist.map _
      ((List.filter_sublist _).trans (List.filter_sublist envs)))
  · intro a ha hb
    obtain ⟨x, hx, hxa⟩ := List.mem_map.mp ha
    obtain ⟨y, hy, hya⟩ := List.mem_map.mp hb
    have hyf := (List.mem_filter.mp hy).2
    simp only [decide_eq_true_eq, List.any_eq_true, not_exists, not_and] at hyf
    exact hyf x hx (by rw [hxa, hya])

end DynBranchEnv

namespace DynBranchEnv

/-- Claim C8: a sweeper run selects exactly the ACTIVE environments with
expiresAt < now together with the CREATING/UPDATING environments with
expiresAt < now − gracePeriod, unions the two scans deduplicating by
environmentId, and issues exactly one DESTROY action per selected
environment. -/
theorem claim_C8 (envs : List SweepEnv) (now graceMinutes : Int)
    (h : (envs.map (fun e => e.virtualEnvId)).Nodup) :
    ((sweeperHandler envs now graceMinutes).map (fun d => d.virtualEnvId)).Nodup
    ∧ (∀ d ∈ sweeperHandler envs now graceMinutes, d.action = "DESTROY"
        ∧ ∃ e ∈ envs, sweepCriteria now graceMinutes e ∧ d = emitDestroyEvent e)
    ∧ (∀ e ∈ envs,
        (emitDestroyEvent e ∈ sweeperHandler envs now graceMinutes
          ↔ sweepCriteria now graceMinutes e))
    ∧ (∀ e ∈ envs,
        ((sweeperHandler envs now graceMinutes).map (fun d => d.virtualEnvId)).count
            e.virtualEnvId
          = if sweepCriteria now graceMinutes e then 1 else 0) := by
  have hinj := List.inj_on_of_nodup_map h
  have hids : (sweeperHandler envs now graceMinutes).map (fun d => d.virtualEnvId)
      = (environmentsToCleanup envs now graceMinutes).map (fun e => e.virtualEnvId) := by
    unfold sweeperHandler
    rw [List.map_map]
    rfl
  have hnodup : ((sweeperHandler envs now graceMinutes).map
      (fun d => d.virtualEnvId)).Nodup := by
    rw [hids]
    exact environmentsToCleanup_ids_nodup envs now graceMinutes h
  have hall : ∀ d ∈ sweeperHandler envs now graceMinutes, d.action = "DESTROY"
      ∧ ∃ e ∈ envs, sweepCriteria now graceMinutes e ∧ d = emitDestroyEvent e := by
    intro d hd
    obtain ⟨x, hx, rfl⟩ := List.mem_map.mp hd
    have hxenv := environmentsToCleanup_subset envs now graceMinutes x hx
    exact ⟨rfl, x, hxenv,
      (mem_environmentsToCleanup envs now graceMinutes h x hxenv).mp hx, rfl⟩
  have hmem : ∀ e ∈ envs, (emitDestroyEvent e ∈ sweeperHandler envs now graceMinutes
      ↔ sweepCriteria now graceMinutes e) := by
    intro e he
    constructor
    · intro hd
      obtain ⟨_, x, hxenv, hxc, hxe⟩ := hall _ hd
      have : x.virtualEnvId = e.virtualEnvId := by
        have := congrArg DestroyEvent.virtualEnvId hxe
        exact this.symm
      have hxeq : x = e := hinj hxenv he this
      rw [hxeq] at hxc
      exact hxc
    · intro hc
      exact List.mem_map_of_mem emitDestroyEvent
        ((mem_environmentsToCleanup envs now graceMinutes h e he).mpr hc)
  refine ⟨hnodup, hall, hmem, ?_⟩
  intro e he
  by_cases hc : sweepCriteria now graceMinutes e
  · rw [if_pos hc]
    apply List.count_eq_one_of_mem hnodup
    exact List.mem_map.mpr ⟨emitDestroyEvent e, (hmem e he).mpr hc, rfl⟩
  · rw [if_neg hc]
    rw [List.count_eq_zero]
    intro hmem'
    obtain ⟨d, hd, hid⟩ := List.mem_map.mp hmem'
    obtain ⟨_, x, hxenv, hxc, rfl⟩ := hall d hd
    have : x.virtualEnvId = e.virtualEnvId := hid
    have hxeq : x = e := hinj hxenv he this
    rw [hxeq] at hxc
    exact hc hxc

theorem claim_C8_witness :
    emitDestroyEvent ⟨"pr-2", "CREATING", "org/repo", "b2", 2, "u2", -1900⟩
      ∈ sweeperHandler sweepSample 100 30 :=
  ((claim_C8 sweepSample 100 30 (by decide)).2.2.1
    ⟨"pr-2", "CREATING", "org/repo", "b2", 2, "u2", -1900⟩ (by decide)).mpr
    (by decide)

end DynBranchEnv

namespace DynBranchEnv

/-! ### Update-path lemmas -/

theorem handleUpdateGo_tr (orc : Oracle) (now : ℕ) (w : World) (a : VirtualEnvAction)
    (e : VirtualEnvironment) :
    (handleUpdateGo orc now w a e).tr
      = [.updateEnvironment a.virtualEnvId "UPDATING"]
        ++ redeployOps e PREVIEWABLE_SERVICES
        ++ (cfgsForEnv w.routingConfigs a.virtualEnvId).map
            (fun c => .updateRoutingTtl c.serviceId c.virtualEnvId)
        ++ [.updateEnvStatus a.virtualEnvId "ACTIVE"] := rfl

theorem mem_redeployOp (e : VirtualEnvironment) (s : PreviewableService) (o : Op) :
    o ∈ redeployOp e s ↔
      ∃ arn, o = .forceRedeploy arn
        ∧ (getSvc e.services s.serviceId).bind (fun st => st.ecsServiceArn) = some arn := by
  unfold redeployOp
  cases harn : (getSvc e.services s.serviceId).bind (fun st => st.ecsServiceArn) with
  | none =>
    constructor
    · intro h; cases h
    · rintro ⟨arn, _, h⟩; cases h
  | some arn =>
    constructor
    · intro h
      rw [List.mem_singleton] at h
      exact ⟨arn, h, rfl⟩
    · rintro ⟨arn', h1, h2⟩
      rw [Option.some_inj] at h2
      rw [h1, h2]
      exact List.mem_singleton.mpr rfl

theorem mem_redeployOps (e : VirtualEnvironment) :
    ∀ (l : List PreviewableService) (o : Op), o ∈ redeployOps e l ↔
      ∃ s ∈ l, ∃ arn, o = .forceRedeploy arn
        ∧ (getSvc e.services s.serviceId).bind (fun st => st.ecsServiceArn) = some arn := by
  intro l
  induction l with
  | nil =>
    intro o
    constructor
    · intro h; cases h
    · rintro ⟨s, hs, _⟩; cases hs
  | cons s rest ih =>
    intro o
    show o ∈ redeployOp e s ++ redeployOps e rest ↔ _
    rw [List.mem_append, mem_redeployOp, ih]
    constructor
    · rintro (⟨arn, h1, h2⟩ | ⟨s', hs', arn, h1, h2⟩)
      · exact ⟨s, List.mem_cons_self s rest, arn, h1, h2⟩
      · exact ⟨s', List.mem_cons_of_mem s hs', arn, h1, h2⟩
    · rintro ⟨s', hs', arn, h1, h2⟩
      rcases List.mem_cons.mp hs' with rfl | hs'
      · exact Or.inl ⟨arn, h1, h2⟩
      · exact Or.inr ⟨s', hs', arn, h1, h2⟩

theorem handleUpdateGo_no_provision (orc : Oracle) (now : ℕ) (w : World)
    (a : VirtualEnvAction) (e : VirtualEnvironment) :
    ∀ o ∈ (handleUpdateGo orc now w a e).tr, isProvisionOp o = false := by
  intro o ho
  rw [handleUpdateGo_tr] at ho
  simp only [List.append_assoc, List.mem_append, List.mem_singleton,
    List.mem_map] at ho
  rcases ho with rfl | ho | ⟨c, _, rfl⟩ | rfl
  · rfl
  · obtain ⟨_, _, arn, rfl, _⟩ := (mem_redeployOps e PREVIEWABLE_SERVICES o).mp ho
    rfl
  · rfl
  · rfl

/-- Claim C7: UPDATE with no record is handled as CREATE; otherwise the
controller sets UPDATING, refreshes expiresAt, force-redeploys exactly the
services with a provisioned compute handle (allocating no priority and
changing no routing-config identity — only the ttl mirror), refreshes the
ttl mirror on every RoutingEntry of the environment, and returns to ACTIVE;
redeploy failures are non-fatal (the result is `ok` for every oracle). -/
theorem claim_C7 :
    (∀ orc now w a, getEnv w.environments a.virtualEnvId = none →
        handleUpdate orc now w a = handleCreate orc now w a)
    ∧ (∀ orc now w a e, getEnv w.environments a.virtualEnvId = some e →
        handleUpdate orc now w a = handleUpdateGo orc now w a e)
    ∧ (∀ orc now w a e, getEnv w.environments a.virtualEnvId = some e →
        (handleUpdateGo orc now w a e).res = .ok ()
        ∧ (handleUpdateGo orc now w a e).w.priorities = w.priorities
        ∧ (∀ o ∈ (handleUpdateGo orc now w a e).tr, isProvisionOp o = false)
        ∧ (handleUpdateGo orc now w a e).w.routingConfigs
            = w.routingConfigs.map (fun c =>
                if c.virtualEnvId = a.virtualEnvId
                then { c with ttl := now + DEFAULT_TTL_HOURS * 60 * 60 } else c)
        ∧ (∃ e', getEnv (handleUpdateGo orc now w a e).w.environments a.virtualEnvId
              = some e'
            ∧ e'.status = "ACTIVE" ∧ e'.expiresAt = now + DEFAULT_TTL_HOURS * 60 * 60
            ∧ e'.services = e.services ∧ e'.commitSha = a.commitSha)
        ∧ (∀ arn, Op.forceRedeploy arn ∈ (handleUpdateGo orc now w a e).tr ↔
            ∃ s ∈ PREVIEWABLE_SERVICES, ∃ arn', Op.forceRedeploy arn
                = Op.forceRedeploy arn'
              ∧ (getSvc e.services s.serviceId).bind (fun st => st.ecsServiceArn)
                  = some arn')
        ∧ (handleUpdateGo orc now w a e).tr.head?
            = some (.updateEnvironment a.virtualEnvId "UPDATING")) := by
  refine ⟨?_, ?_, ?_⟩
  · intro orc now w a h
    unfold handleUpdate
    rw [h]
  · intro orc now w a e h
    unfold handleUpdate
    rw [h]
  · intro orc now w a e h
    refine ⟨rfl, rfl, handleUpdateGo_no_provision orc now w a e, rfl, ?_, ?_, rfl⟩
    · have henv : (handleUpdateGo orc now w a e).w.environments
          = updateEnvRecord (updateEnvRecord w.environments a.virtualEnvId (fun v =>
              { v with status := "UPDATING", updatedAt := now,
                       expiresAt := now + DEFAULT_TTL_HOURS * 60 * 60,
                       ttl := now + DEFAULT_TTL_HOURS * 60 * 60,
                       commitSha := a.commitSha }))
            a.virtualEnvId (fun v => { v with status := "ACTIVE", updatedAt := now }) := rfl
      rw [henv, getEnv_updateEnvRecord, getEnv_updateEnvRecord, h]
      exact ⟨_, rfl, rfl, rfl, rfl, rfl⟩
    · intro arn
      rw [handleUpdateGo_tr]
      simp only [List.append_assoc, List.mem_append, List.mem_singleton,
        List.mem_map]
      constructor
      · rintro (h' | h' | ⟨c, _, h'⟩ | h')
        · cases h'
        · exact (mem_redeployOps e PREVIEWABLE_SERVICES _).mp h'
        · cases h'
        · cases h'
      · intro h'
        exact Or.inr (Or.inl ((mem_redeployOps e PREVIEWABLE_SERVICES _).mpr h'))

theorem claim_C7_witness :
    (handleUpdateGo okOrc 200 sampleWorld sampleAction sampleEnv).res = .ok ()
    ∧ (handleUpdateGo okOrc 200 sampleWorld sampleAction sampleEnv).w.priorities
        = sampleWorld.priorities :=
  let r := (claim_C7.2.2 okOrc 200 sampleWorld sampleAction sampleEnv rfl)
  ⟨r.1, r.2.1⟩

end DynBranchEnv

namespace DynBranchEnv

/-! ### Create-path lemmas -/

theorem allocatePriority_w_environments (orc : Oracle) (w : World) :
    (allocatePriority orc w).w.environments = w.environments := by
  unfold allocatePriority
  dsimp only
  cases allocScan w.priorities (allocCas orc w.priorities) priorityRange <;> rfl

theorem deployService_environments (orc : Oracle) (w : World) (envId : String)
    (svc : PreviewableService) (exp : ℕ) :
    (deployService orc w envId svc exp).w.environments = w.environments := by
  unfold deployService
  dsimp only
  by_cases h1 : orc (Op.registerTaskDef envId svc.serviceId)
  · rw [if_pos h1]
  · rw [if_neg h1]
    by_cases h2 : orc (Op.createTargetGroup envId svc.serviceId)
    · rw [if_pos h2]
    · rw [if_neg h2]
      cases hres : (allocatePriority orc w).res with
      | error e =>
        exact allocatePriority_w_environments orc w
      | ok p =>
        dsimp only
        by_cases h4 : orc (Op.createRule envId svc.serviceId)
        · rw [if_pos h4]
          exact allocatePriority_w_environments orc w
        · rw [if_neg h4]
          by_cases h6 : orc (Op.createEcsService envId svc.serviceId)
          · rw [if_pos h6]
            exact allocatePriority_w_environments orc w
          · rw [if_neg h6]
            exact allocatePriority_w_environments orc w

theorem deployService_tr_registerTaskDef (orc : Oracle) (w : World) (envId : String)
    (svc : PreviewableService) (exp : ℕ) :
    Op.registerTaskDef envId svc.serviceId ∈ (deployService orc w envId svc exp).tr := by
  unfold deployService
  dsimp only
  by_cases h1 : orc (Op.registerTaskDef envId svc.serviceId)
  · rw [if_pos h1]
    exact List.mem_cons_self _ _
  · rw [if_neg h1]
    by_cases h2 : orc (Op.createTargetGroup envId svc.serviceId)
    · rw [if_pos h2]
      exact List.mem_cons_self _ _
    · rw [if_neg h2]
      cases hres : (allocatePriority orc w).res with
      | error e =>
        exact List.mem_append_left _ (List.mem_cons_self _ _)
      | ok p =>
        dsimp only
        by_cases h4 : orc (Op.createRule envId svc.serviceId)
        · rw [if_pos h4]
          exact List.mem_append_left _ (List.mem_append_left _ (List.mem_cons_self _ _))
        · rw [if_neg h4]
          by_cases h6 : orc (Op.createEcsService envId svc.serviceId)
          · rw [if_pos h6]
            exact List.mem_append_left _ (List.mem_append_left _ (List.mem_cons_self _ _))
          · rw [if_neg h6]
            exact List.mem_append_left _ (List.mem_append_left _ (List.mem_cons_self _ _))

theorem deployLoop_getEnv (orc : Oracle) (now : ℕ) (envId : String) (exp : ℕ) :
    ∀ (l : List PreviewableService) (w : World) (acc : List (String × ServiceState))
      (e : VirtualEnvironment), getEnv w.environments envId = some e →
      ∃ e', getEnv (deployLoop orc now w envId exp acc l).1.environments envId = some e'
        ∧ e'.status = e.status ∧ e'.expiresAt = e.expiresAt
        ∧ e'.createdAt = e.createdAt ∧ e'.lastError = e.lastError := by
  intro l
  induction l with
  | nil =>
    intro w acc e h
    exact ⟨e, h, rfl, rfl, rfl, rfl⟩
  | cons svc rest ih =>
    intro w acc e h
    have hstep : getEnv ({ (deployService orc w envId svc exp).w with
        environments := setEnvServices (deployService orc w envId svc exp).w.environments
          envId (deployAcc acc svc (deployService orc w envId svc exp).res)
          now } : World).environments envId
        = some { e with
            services := deployAcc acc svc (deployService orc w envId svc exp).res,
            updatedAt := now } := by
      show getEnv (setEnvServices (deployService orc w envId svc exp).w.environments
        envId _ now) envId = _
      unfold setEnvServices
      rw [getEnv_updateEnvRecord, deployService_environments, h]
      rfl
    obtain ⟨e', he', h1, h2, h3, h4⟩ := ih _ _ _ hstep
    exact ⟨e', he', h1, h2, h3, h4⟩

end DynBranchEnv

namespace DynBranchEnv

theorem deployLoop_tr_registerTaskDef (orc : Oracle) (now : ℕ) (envId : String)
    (exp : ℕ) :
    ∀ (l : List PreviewableService) (w : World) (acc : List (String × ServiceState))
      (svc : PreviewableService), svc ∈ l →
      Op.registerTaskDef envId svc.serviceId ∈ (deployLoop orc now w envId exp acc l).2.1 := by
  intro l
  induction l with
  | nil =>
    intro w acc svc h
    cases h
  | cons s rest ih =>
    intro w acc svc h
    rcases List.mem_cons.mp h with rfl | h
    · exact List.mem_append_left _
        (List.mem_append_left _ (deployService_tr_registerTaskDef orc w envId svc exp))
    · exact List.mem_append_right _ (ih _ _ svc h)

theorem envCount_updateEnvRecord (l : List (String × VirtualEnvironment)) (id' : String)
    (f : VirtualEnvironment → VirtualEnvironment) (id : String) :
    envCount (updateEnvRecord l id' f) id = envCount l id := by
  induction l with
  | nil => rfl
  | cons kv t ih =>
    show envCount ((if kv.1 = id' then (kv.1, f kv.2) else kv) :: updateEnvRecord t id' f) id = _
    by_cases h : kv.1 = id'
    · rw [if_pos h]
      unfold envCount at ih ⊢
      rw [List.filter_cons, List.filter_cons]
      by_cases hk : kv.1 = id
      · rw [if_pos (by simpa using hk), if_pos (by simpa using hk)]
        simp only [List.length_cons]
        omega
      · rw [if_neg (by simpa using hk), if_neg (by simpa using hk)]
        exact ih
    · rw [if_neg h]
      unfold envCount at ih ⊢
      rw [List.filter_cons, List.filter_cons]
      by_cases hk : kv.1 = id
      · rw [if_pos (by simpa using hk), if_pos (by simpa using hk)]
        simp only [List.length_cons]
        omega
      · rw [if_neg (by simpa using hk), if_neg (by simpa using hk)]
        exact ih

theorem envCount_putEnv (l : List (String × VirtualEnvironment)) (id : String)
    (e : VirtualEnvironment) (h : envCount l id ≤ 1) :
    envCount (putEnv l id e) id = 1 := by
  induction l with
  | nil =>
    show envCount [(id, e)] id = 1
    unfold envCount
    rw [List.filter_cons, if_pos (by simp)]
    rfl
  | cons kv t ih =>
    show envCount (if kv.1 = id then (id, e) :: t else kv :: putEnv t id e) id = 1
    by_cases hk : kv.1 = id
    · rw [if_pos hk]
      unfold envCount at h ⊢
      rw [List.filter_cons] at h ⊢
      rw [if_pos (by simp)]
      rw [if_pos (by simpa using hk)] at h
      simp only [List.length_cons] at h ⊢
      omega
    · rw [if_neg hk]
      unfold envCount at h ih ⊢
      rw [List.filter_cons] at h ⊢
      rw [if_neg (by simpa using hk)] at h ⊢
      exact ih h

theorem deployLoop_envCount (orc : Oracle) (now : ℕ) (envId : String) (exp : ℕ)
    (id : String) :
    ∀ (l : List PreviewableService) (w : World) (acc : List (String × ServiceState)),
      envCount (deployLoop orc now w envId exp acc l).1.environments id
        = envCount w.environments id := by
  intro l
  induction l with
  | nil => intro w acc; rfl
  | cons s rest ih =>
    intro w acc
    rw [show (deployLoop orc now w envId exp acc (s :: rest)).1
        = (deployLoop orc now
            { (deployService orc w envId s exp).w with
              environments := setEnvServices (deployService orc w envId s exp).w.environments
                envId (deployAcc acc s (deployService orc w envId s exp).res) now }
            envId exp (deployAcc acc s (deployService orc w envId s exp).res) rest).1
      from rfl]
    rw [ih]
    show envCount (setEnvServices (deployService orc w envId s exp).w.environments
      envId _ now) id = _
    unfold setEnvServices
    rw [envCount_updateEnvRecord, deployService_environments]

end DynBranchEnv

namespace DynBranchEnv

theorem handleCreateFresh_env_eq (orc : Oracle) (now : ℕ) (w : World)
    (a : VirtualEnvAction) :
    (handleCreateFresh orc now w a).w.environments
      = setEnvStatus
          (deployLoop orc now
            { w with environments := putEnv w.environments a.virtualEnvId (freshEnvRecord a now) }
            a.virtualEnvId (now + DEFAULT_TTL_HOURS * 60 * 60) []
            PREVIEWABLE_SERVICES).1.environments
          a.virtualEnvId "ACTIVE" now := rfl

theorem handleCreateFresh_getEnv (orc : Oracle) (now : ℕ) (w : World)
    (a : VirtualEnvAction) :
    ∃ e', getEnv (handleCreateFresh orc now w a).w.environments a.virtualEnvId = some e'
      ∧ e'.status = "ACTIVE" ∧ e'.expiresAt = now + DEFAULT_TTL_HOURS * 60 * 60
      ∧ e'.createdAt = now ∧ e'.lastError = none := by
  obtain ⟨e', he', h1, h2, h3, h4⟩ := deployLoop_getEnv orc now a.virtualEnvId
    (now + DEFAULT_TTL_HOURS * 60 * 60) PREVIEWABLE_SERVICES
    { w with environments := putEnv w.environments a.virtualEnvId (freshEnvRecord a now) }
    [] (freshEnvRecord a now)
    (getEnv_putEnv w.environments a.virtualEnvId (freshEnvRecord a now))
  have hfin : getEnv (handleCreateFresh orc now w a).w.environments a.virtualEnvId
      = some { e' with status := "ACTIVE", updatedAt := now } := by
    rw [handleCreateFresh_env_eq]
    unfold setEnvStatus
    rw [getEnv_updateEnvRecord, he']
    rfl
  refine ⟨_, hfin, rfl, ?_, ?_, ?_⟩
  · show e'.expiresAt = _
    rw [h2]
    rfl
  · show e'.createdAt = _
    rw [h3]
    rfl
  · show e'.lastError = _
    rw [h4]
    rfl

theorem handleCreateFresh_envCount (orc : Oracle) (now : ℕ) (w : World)
    (a : VirtualEnvAction) (h : envCount w.environments a.virtualEnvId ≤ 1) :
    envCount (handleCreateFresh orc now w a).w.environments a.virtualEnvId = 1 := by
  rw [handleCreateFresh_env_eq]
  unfold setEnvStatus
  rw [envCount_updateEnvRecord, deployLoop_envCount]
  show envCount (putEnv w.environments a.virtualEnvId (freshEnvRecord a now))
    a.virtualEnvId = 1
  exact envCount_putEnv _ _ _ h

theorem handleUpdateGo_envCount (orc : Oracle) (now : ℕ) (w : World)
    (a : VirtualEnvAction) (e : VirtualEnvironment) (id : String) :
    envCount (handleUpdateGo orc now w a e).w.environments id
      = envCount w.environments id := by
  have heq : (handleUpdateGo orc now w a e).w.environments
      = setEnvStatus (updateEnvRecord w.environments a.virtualEnvId (fun v =>
          { v with status := "UPDATING", updatedAt := now,
                   expiresAt := now + DEFAULT_TTL_HOURS * 60 * 60,
                   ttl := now + DEFAULT_TTL_HOURS * 60 * 60,
                   commitSha := a.commitSha }))
        a.virtualEnvId "ACTIVE" now := rfl
  rw [heq]
  unfold setEnvStatus
  rw [envCount_updateEnvRecord, envCount_updateEnvRecord]

/-- Claim C3: a CREATE with no record, or with a record in DESTROYED or
FAILED, runs the fresh-create path: the record is overwritten as a fresh
CREATING record with `expiresAt = now + defaultTtl` and no services, every
configured service is then deployed, and the environment ends ACTIVE with
one record; a CREATE with a record in any other status is handled as an
UPDATE — no provisioning operation is issued and the record count is
unchanged, so a duplicate CREATE cannot double-provision. -/
theorem claim_C3 :
    (∀ orc now w a, getEnv w.environments a.virtualEnvId = none →
        handleCreate orc now w a = handleCreateFresh orc now w a)
    ∧ (∀ orc now w a e, getEnv w.environments a.virtualEnvId = some e →
        (e.status = "DESTROYED" ∨ e.status = "FAILED") →
        handleCreate orc now w a = handleCreateFresh orc now w a)
    ∧ (∀ a now, (freshEnvRecord a now).status = "CREATING"
        ∧ (freshEnvRecord a now).expiresAt = now + DEFAULT_TTL_HOURS * 60 * 60
        ∧ (freshEnvRecord a now).services = [])
    ∧ (∀ orc now w a,
        (handleCreateFresh orc now w a).tr.head? = some (.putEnvironment a.virtualEnvId)
        ∧ (∀ s ∈ PREVIEWABLE_SERVICES,
            Op.registerTaskDef a.virtualEnvId s.serviceId
              ∈ (handleCreateFresh orc now w a).tr)
        ∧ (∃ e', getEnv (handleCreateFresh orc now w a).w.environments a.virtualEnvId
              = some e'
            ∧ e'.status = "ACTIVE" ∧ e'.expiresAt = now + DEFAULT_TTL_HOURS * 60 * 60
            ∧ e'.createdAt = now)
        ∧ (envCount w.environments a.virtualEnvId ≤ 1 →
            envCount (handleCreateFresh orc now w a).w.environments a.virtualEnvId = 1))
    ∧ (∀ orc now w a e, getEnv w.environments a.virtualEnvId = some e →
        e.status ≠ "DESTROYED" → e.status ≠ "FAILED" →
        handleCreate orc now w a = handleUpdateGo orc now w a e
        ∧ (∀ o ∈ (handleCreate orc now w a).tr, isProvisionOp o = false)
        ∧ envCount (handleCreate orc now w a).w.environments a.virtualEnvId
            = envCount w.environments a.virtualEnvId) := by
  have hdisp : ∀ orc now w a e, getEnv w.environments a.virtualEnvId = some e →
      e.status ≠ "DESTROYED" → e.status ≠ "FAILED" →
      handleCreate orc now w a = handleUpdateGo orc now w a e := by
    intro orc now w a e h h1 h2
    unfold handleCreate
    rw [h]
    dsimp only
    rw [if_pos ⟨h1, h2⟩]
  refine ⟨?_, ?_, ?_, ?_, ?_⟩
  · intro orc now w a h
    unfold handleCreate
    rw [h]
  · intro orc now w a e h hterm
    unfold handleCreate
    rw [h]
    dsimp only
    rw [if_neg ?_]
    intro hcon
    rcases hterm with ht | ht
    · exact hcon.1 ht
    · exact hcon.2 ht
  · intro a now
    exact ⟨rfl, rfl, rfl⟩
  · intro orc now w a
    refine ⟨rfl, ?_, ?_, handleCreateFresh_envCount orc now w a⟩
    · intro s hs
      have htr : (handleCreateFresh orc now w a).tr
          = [Op.putEnvironment a.virtualEnvId]
            ++ (deployLoop orc now
              { w with environments :=
                  putEnv w.environments a.virtualEnvId (freshEnvRecord a now) }
              a.virtualEnvId (now + DEFAULT_TTL_HOURS * 60 * 60) []
              PREVIEWABLE_SERVICES).2.1
            ++ [Op.updateEnvStatus a.virtualEnvId "ACTIVE"] := rfl
      rw [htr]
      exact List.mem_append_left _ (List.mem_append_right _
        (deployLoop_tr_registerTaskDef orc now a.virtualEnvId _ PREVIEWABLE_SERVICES
          _ _ s hs))
    · obtain ⟨e', he', h1, h2, h3, _⟩ := handleCreateFresh_getEnv orc now w a
      exact ⟨e', he', h1, h2, h3⟩
  · intro orc now w a e h h1 h2
    have hd := hdisp orc now w a e h h1 h2
    refine ⟨hd, ?_, ?_⟩
    · rw [hd]
      exact handleUpdateGo_no_provision orc now w a e
    · rw [hd]
      exact handleUpdateGo_envCount orc now w a e a.virtualEnvId

theorem claim_C3_witness :
    handleCreate okOrc 0 emptyWorld sampleAction
      = handleCreateFresh okOrc 0 emptyWorld sampleAction :=
  claim_C3.1 okOrc 0 emptyWorld sampleAction rfl

end DynBranchEnv

namespace DynBranchEnv

/-- Claim C2 counterexample: in a CREATE against an empty store where
api-gateway's rule-creation step is forced to fail, the environment ends
ACTIVE with api-gateway FAILED and web-app ACTIVE — but `lastError` is
`none`: the claim's "the environment record's lastError field is non-empty
after the CREATE completes" is false on the code, which never writes
`lastError` on a per-service failure. -/
theorem claim_C2_counterexample :
    (getEnv (handleCreate failRuleOrc 100 emptyWorld sampleAction).w.environments
        "pr-1").map (fun e =>
          (e.status, (getSvc e.services "api-gateway").map (fun s => s.status),
           (getSvc e.services "web-app").map (fun s => s.status), e.lastError))
      = some ("ACTIVE", some "FAILED", some "ACTIVE", none) := rfl

/-- Claim C2 (amended): when a configured service's deployment step fails
during CREATE, only that service's ServiceState is marked FAILED, the
remaining services are still deployed, and the environment still reaches
ACTIVE — but the record's `lastError` field remains unset: the controller
only writes `lastError` when an exception escapes the handler and the
status is forced to FAILED.  Shown for a rule-creation failure of either
configured service, and in full generality (any oracle, any failure
pattern) the final record of a fresh CREATE is ACTIVE with
`lastError = none`. -/
theorem claim_C2_amended (now : ℕ) :
    ((getEnv (handleCreate failRuleOrc now emptyWorld sampleAction).w.environments
        "pr-1").map (fun e =>
          (e.status, (getSvc e.services "api-gateway").map (fun s => s.status),
           (getSvc e.services "web-app").map (fun s => s.status), e.lastError))
      = some ("ACTIVE", some "FAILED", some "ACTIVE", none))
    ∧ ((getEnv (handleCreate failRuleOrc2 now emptyWorld sampleAction).w.environments
        "pr-1").map (fun e =>
          (e.status, (getSvc e.services "api-gateway").map (fun s => s.status),
           (getSvc e.services "web-app").map (fun s => s.status), e.lastError))
      = some ("ACTIVE", some "ACTIVE", some "FAILED", none))
    ∧ (handleCreate failRuleOrc now emptyWorld sampleAction).res = .ok ()
    ∧ (∀ orc w a, ∃ e',
        getEnv (handleCreateFresh orc now w a).w.environments a.virtualEnvId = some e'
        ∧ e'.status = "ACTIVE" ∧ e'.lastError = none) := by
  refine ⟨rfl, rfl, rfl, ?_⟩
  intro orc w a
  obtain ⟨e', he', h1, _, _, h4⟩ := handleCreateFresh_getEnv orc now w a
  exact ⟨e', he', h1, h4⟩

/-- Claim C10: during DESTROY a service's PriorityAllocation is released
only when a RoutingEntry row for `(serviceId, environmentId)` exists at
teardown time (otherwise `cleanupService` leaves the store untouched);
because `deployService` persists the RoutingEntry as its last step while
the priority is allocated earlier, a service whose deployment fails after
priority allocation but before the RoutingEntry write retains its
PriorityAllocation after DESTROY completes — concretely, api-gateway's
priority 1 is still allocated after DESTROY while web-app's priority 2 is
released. -/
theorem claim_C10 :
    (∀ orc w envId sid st, getCfg w.routingConfigs sid envId = none →
        (cleanupService orc w envId sid st).1 = w)
    ∧ (∀ now now' orc',
        getCfg (handleCreate failRuleOrc now emptyWorld sampleAction).w.routingConfigs
            "api-gateway" "pr-1" = none
        ∧ 1 ∈ (handleCreate failRuleOrc now emptyWorld sampleAction).w.priorities
        ∧ Op.putPriority 1 ∈ (handleCreate failRuleOrc now emptyWorld sampleAction).tr
        ∧ Op.putRoutingConfig "pr-1" "api-gateway"
            ∉ (handleCreate failRuleOrc now emptyWorld sampleAction).tr
        ∧ 1 ∈ (handleDestroy orc' now'
              (handleCreate failRuleOrc now emptyWorld sampleAction).w "pr-1").w.priorities
        ∧ 2 ∉ (handleDestroy orc' now'
              (handleCreate failRuleOrc now emptyWorld sampleAction).w "pr-1").w.priorities)
    ∧ (∀ exp, (deployService okOrc emptyWorld "pr-1"
          ⟨"api-gateway", "/api/*", 3000, "/health", 256, 512,
           "amazon/amazon-ecs-sample:latest"⟩ exp).tr.getLast?
        = some (.putRoutingConfig "pr-1" "api-gateway")
        ∧ Op.putPriority 1 ∈ (deployService okOrc emptyWorld "pr-1"
            ⟨"api-gateway", "/api/*", 3000, "/health", 256, 512,
             "amazon/amazon-ecs-sample:latest"⟩ exp).tr) := by
  refine ⟨?_, ?_, ?_⟩
  · intro orc w envId sid st h
    unfold cleanupService
    rw [h]
  · intro now now' orc'
    have htr : (handleCreate failRuleOrc now emptyWorld sampleAction).tr
        = [.putEnvironment "pr-1", .registerTaskDef "pr-1" "api-gateway",
           .createTargetGroup "pr-1" "api-gateway", .putPriority 1,
           .createRule "pr-1" "api-gateway", .updateEnvServices "pr-1",
           .registerTaskDef "pr-1" "web-app", .createTargetGroup "pr-1" "web-app",
           .putPriority 2, .createRule "pr-1" "web-app", .createCloudMap "pr-1" "web-app",
           .createEcsService "pr-1" "web-app", .putRoutingConfig "pr-1" "web-app",
           .updateEnvServices "pr-1", .updateEnvStatus "pr-1" "ACTIVE"] := rfl
    have hpri : (handleCreate failRuleOrc now emptyWorld sampleAction).w.priorities
        = insert 2 (insert 1 (∅ : Finset ℕ)) := rfl
    have hdpri : (handleDestroy orc' now'
          (handleCreate failRuleOrc now emptyWorld sampleAction).w "pr-1").w.priorities
        = (insert 2 (insert 1 (∅ : Finset ℕ))).erase 2 := rfl
    refine ⟨rfl, ?_, ?_, ?_, ?_, ?_⟩
    · rw [hpri]; decide
    · rw [htr]; decide
    · rw [htr]; decide
    · rw [hdpri]; decide
    · rw [hdpri]; decide
  · intro exp
    refine ⟨rfl, ?_⟩
    have htr : (deployService okOrc emptyWorld "pr-1"
          ⟨"api-gateway", "/api/*", 3000, "/health", 256, 512,
           "amazon/amazon-ecs-sample:latest"⟩ exp).tr
        = [.registerTaskDef "pr-1" "api-gateway", .createTargetGroup "pr-1" "api-gateway",
           .putPriority 1, .createRule "pr-1" "api-gateway",
           .createCloudMap "pr-1" "api-gateway", .createEcsService "pr-1" "api-gateway",
           .putRoutingConfig "pr-1" "api-gateway"] := rfl
    rw [htr]
    decide

end DynBranchEnv

namespace DynBranchEnv

/-! ### Teardown-order lemmas -/

theorem cleanupService_tr_deleteRule (orc : Oracle) (w : World) (envId sid : String)
    (st : ServiceState) (ra : String) (h : st.albRuleArn = some ra) :
    Op.deleteRule ra ∈ (cleanupService orc w envId sid st).2 := by
  unfold cleanupService
  rw [h]
  cases getCfg w.routingConfigs sid envId <;> simp

theorem cleanupService_tr_deleteTargetGroup (orc : Oracle) (w : World)
    (envId sid : String) (st : ServiceState) (tg : String)
    (h : st.targetGroupArn = some tg) :
    Op.deleteTargetGroup tg ∈ (cleanupService orc w envId sid st).2 := by
  unfold cleanupService
  rw [h]
  cases getCfg w.routingConfigs sid envId <;> simp

theorem cleanupService_tr_deleteCloudMap (orc : Oracle) (w : World)
    (envId sid : String) (st : ServiceState) (cm : String)
    (h : st.cloudMapServiceId = some cm) :
    Op.deleteCloudMap cm ∈ (cleanupService orc w envId sid st).2 := by
  unfold cleanupService
  rw [h]
  cases getCfg w.routingConfigs sid envId <;> simp

theorem cleanupService_tr_deletePriority (orc : Oracle) (w : World)
    (envId sid : String) (st : ServiceState) (cfg : RoutingConfig)
    (h : getCfg w.routingConfigs sid envId = some cfg) :
    Op.deletePriority cfg.priority ∈ (cleanupService orc w envId sid st).2 := by
  unfold cleanupService
  rw [h]
  simp [releasePriority]

theorem cleanupServices_tr_mem (orc : Oracle) (envId : String) :
    ∀ (l : List (String × ServiceState)) (w : World) (sid : String) (st : ServiceState),
      (sid, st) ∈ l →
      (∀ ra, st.albRuleArn = some ra →
        Op.deleteRule ra ∈ (cleanupServices orc w envId l).2)
      ∧ (∀ tg, st.targetGroupArn = some tg →
        Op.deleteTargetGroup tg ∈ (cleanupServices orc w envId l).2)
      ∧ (∀ cm, st.cloudMapServiceId = some cm →
        Op.deleteCloudMap cm ∈ (cleanupServices orc w envId l).2) := by
  intro l
  induction l with
  | nil =>
    intro w sid st h
    cases h
  | cons kv rest ih =>
    intro w sid st h
    obtain ⟨k, v⟩ := kv
    rcases List.mem_cons.mp h with heq | h
    · obtain ⟨rfl, rfl⟩ := Prod.mk.injEq .. ▸ (by exact Prod.mk.inj heq.symm : k = sid ∧ v = st)
      refine ⟨?_, ?_, ?_⟩
      · intro ra hra
        exact List.mem_append_left _ (cleanupService_tr_deleteRule orc w envId sid st ra hra)
      · intro tg htg
        exact List.mem_append_left _
          (cleanupService_tr_deleteTargetGroup orc w envId sid st tg htg)
      · intro cm hcm
        exact List.mem_append_left _
          (cleanupService_tr_deleteCloudMap orc w envId sid st cm hcm)
    · obtain ⟨h1, h2, h3⟩ := ih (cleanupService orc w envId k v).1 sid st h
      exact ⟨fun ra hra => List.mem_append_right _ (h1 ra hra),
        fun tg htg => List.mem_append_right _ (h2 tg htg),
        fun cm hcm => List.mem_append_right _ (h3 cm hcm)⟩

theorem handleDestroy_tr_shape (orc : Oracle) (now : ℕ) (w : World) (id : String)
    (e : VirtualEnvironment) (h : getEnv w.environments id = some e) :
    (handleDestroy orc now w id).tr
      = [Op.updateEnvStatus id "DESTROYING"]
        ++ (cleanupServices orc
            { w with environments := setEnvStatus w.environments id "DESTROYING" now }
            id e.services).2
        ++ (cleanupRoutingConfig (cleanupServices orc
            { w with environments := setEnvStatus w.environments id "DESTROYING" now }
            id e.services).1 id).2
        ++ [Op.updateEnvStatus id "DESTROYED"] := by
  unfold handleDestroy
  rw [h]

theorem handleDestroy_cfgs_nil (orc : Oracle) (now : ℕ) (w : World) (id : String)
    (e : VirtualEnvironment) (h : getEnv w.environments id = some e) :
    cfgsForEnv (handleDestroy orc now w id).w.routingConfigs id = [] := by
  unfold handleDestroy
  rw [h]
  dsimp only
  unfold cfgsForEnv cleanupRoutingConfig
  dsimp only
  rw [List.filter_filter]
  rw [List.filter_eq_nil]
  intro a _
  simp

/-- Claim C4 counterexample: computed from the embedded `deployService` and
`cleanupService` at a concrete fully-provisioned service, the per-service
teardown order (rule, compute, target group, registry, priority) is NOT the
reverse of the per-service creation order (target group, priority, rule,
registry, compute) — "strict reverse-of-creation order" fails: in creation
the target group precedes the rule and the registry entry precedes the
compute service, but teardown deletes the rule first and the target group
before the registry entry. -/
theorem claim_C4_counterexample :
    ((cleanupService okOrc sampleWorld "pr-1" "api-gateway" sampleSvcState).2.filterMap
        destroyKind)
      ≠ (((deployService okOrc emptyWorld "pr-1"
          ⟨"api-gateway", "/api/*", 3000, "/health", 256, 512,
           "amazon/amazon-ecs-sample:latest"⟩ 500).tr.filterMap createKind)).reverse
    ∧ ((cleanupService okOrc sampleWorld "pr-1" "api-gateway" sampleSvcState).2.filterMap
        destroyKind)
      = [.rule, .compute, .targetGroup, .registry, .priority]
    ∧ ((deployService okOrc emptyWorld "pr-1"
          ⟨"api-gateway", "/api/*", 3000, "/health", 256, 512,
           "amazon/amazon-ecs-sample:latest"⟩ 500).tr.filterMap createKind)
      = [.targetGroup, .priority, .rule, .registry, .compute] := by
  refine ⟨?_, rfl, rfl⟩
  decide

/-- Claim C4 (amended): DESTROY on an existing record sets DESTROYING and,
for every ServiceState present at that time, tears the service down in the
fixed order routing rule → compute service (scale to zero then delete) →
target group → registry entry → release of the associated
PriorityAllocation — a fixed order that is not the strict reverse of the
creation order — with each step attempted independently and failures
non-fatal (under every oracle the trace still attempts the later steps and
the run completes); after all services are processed the RoutingEntry rows
are deleted and the status is set to DESTROYED. -/
theorem claim_C4 :
    (∀ (w : World) (envId sid ra se tg cm : String) (st : ServiceState)
        (cfg : RoutingConfig),
      st.albRuleArn = some ra → st.ecsServiceArn = some se →
      st.targetGroupArn = some tg → st.cloudMapServiceId = some cm →
      getCfg w.routingConfigs sid envId = some cfg →
      (cleanupService okOrc w envId sid st).2
        = [.deleteRule ra, .scaleEcsToZero (envId ++ "-" ++ sid),
           .deleteEcsService (envId ++ "-" ++ sid), .deleteTargetGroup tg,
           .deleteCloudMap cm, .deletePriority cfg.priority])
    ∧ (∀ (orc : Oracle) (w : World) (envId sid ra tg cm : String) (st : ServiceState)
        (cfg : RoutingConfig),
      st.albRuleArn = some ra → st.targetGroupArn = some tg →
      st.cloudMapServiceId = some cm →
      getCfg w.routingConfigs sid envId = some cfg →
      Op.deleteRule ra ∈ (cleanupService orc w envId sid st).2
      ∧ Op.deleteTargetGroup tg ∈ (cleanupService orc w envId sid st).2
      ∧ Op.deleteCloudMap cm ∈ (cleanupService orc w envId sid st).2
      ∧ Op.deletePriority cfg.priority ∈ (cleanupService orc w envId sid st).2)
    ∧ (∀ orc now w id e, getEnv w.environments id = some e →
        (handleDestroy orc now w id).res = .ok ()
        ∧ (handleDestroy orc now w id).tr.head? = some (.updateEnvStatus id "DESTROYING")
        ∧ (handleDestroy orc now w id).tr.getLast? = some (.updateEnvStatus id "DESTROYED")
        ∧ cfgsForEnv (handleDestroy orc now w id).w.routingConfigs id = []
        ∧ (∃ e', getEnv (handleDestroy orc now w id).w.environments id = some e'
            ∧ e'.status = "DESTROYED")
        ∧ (∀ sid st, (sid, st) ∈ e.services →
            (∀ ra, st.albRuleArn = some ra →
              Op.deleteRule ra ∈ (handleDestroy orc now w id).tr)
            ∧ (∀ tg, st.targetGroupArn = some tg →
              Op.deleteTargetGroup tg ∈ (handleDestroy orc now w id).tr)
            ∧ (∀ cm, st.cloudMapServiceId = some cm →
              Op.deleteCloudMap cm ∈ (handleDestroy orc now w id).tr))) := by
  refine ⟨?_, ?_, ?_⟩
  · intro w envId sid ra se tg cm st cfg hra hse htg hcm hcfg
    unfold cleanupService
    rw [hra, hse, htg, hcm, hcfg]
    rfl
  · intro orc w envId sid ra tg cm st cfg hra htg hcm hcfg
    exact ⟨cleanupService_tr_deleteRule orc w envId sid st ra hra,
      cleanupService_tr_deleteTargetGroup orc w envId sid st tg htg,
      cleanupService_tr_deleteCloudMap orc w envId sid st cm hcm,
      cleanupService_tr_deletePriority orc w envId sid st cfg hcfg⟩
  · intro orc now w id e h
    refine ⟨handleDestroy_res orc now w id, ?_, ?_,
      handleDestroy_cfgs_nil orc now w id e h,
      handleDestroy_some_status orc now w id e h, ?_⟩
    · rw [handleDestroy_tr_shape orc now w id e h]
      rfl
    · rw [handleDestroy_tr_shape orc now w id e h]
      exact List.getLast?_concat _
    · intro sid st hmem
      obtain ⟨h1, h2, h3⟩ := cleanupServices_tr_mem orc id e.services
        { w with environments := setEnvStatus w.environments id "DESTROYING" now }
        sid st hmem
      rw [handleDestroy_tr_shape orc now w id e h]
      refine ⟨?_, ?_, ?_⟩
      · intro ra hra
        exact List.mem_append_left _ (List.mem_append_left _
          (List.mem_append_right _ (h1 ra hra)))
      · intro tg htg
        exact List.mem_append_left _ (List.mem_append_left _
          (List.mem_append_right _ (h2 tg htg)))
      · intro cm hcm
        exact List.mem_append_left _ (List.mem_append_left _
          (List.mem_append_right _ (h3 cm hcm)))

theorem claim_C4_witness :
    (cleanupService okOrc sampleWorld "pr-1" "api-gateway" sampleSvcState).2
      = [.deleteRule "pr-1-api-gateway:rule", .scaleEcsToZero "pr-1-api-gateway",
         .deleteEcsService "pr-1-api-gateway", .deleteTargetGroup "pr-1-api-gateway:tg",
         .deleteCloudMap "pr-1-api-gateway:cloudmap", .deletePriority 1] :=
  claim_C4.1 sampleWorld "pr-1" "api-gateway" "pr-1-api-gateway:rule"
    "pr-1-api-gateway:ecs" "pr-1-api-gateway:tg" "pr-1-api-gateway:cloudmap"
    sampleSvcState
    ⟨"api-gateway", "pr-1", "pr-1-api-gateway:tg", "pr-1-api-gateway:rule", 1, 86500⟩
    rfl rfl rfl rfl rfl

theorem claim_C10_witness :
    (cleanupService okOrc emptyWorld "pr-1" "api-gateway" sampleSvcState).1 = emptyWorld :=
  claim_C10.1 okOrc emptyWorld "pr-1" "api-gateway" sampleSvcState rfl

end DynBranchEnv
